import Mathlib

set_option maxRecDepth 100000

/-!
# Verification of the recursive Drive-folder mirror (`src/download_folder.py`)

Shallow embedding of the mirroring core of the repository:

* `download_folder`        ⇝ Python `download_folder(service, folder_id, local_path)`
* `download_folder_contents` ⇝ Python `download_folder_contents(service, folder_id, local_path)`
* `processItems`           ⇝ the `for item in items:` loop body of `download_folder_contents`
* `download_file`          ⇝ Python `download_file(service, file_id, file_name, local_path)`

The remote Drive service is modelled as a tree of nodes (`RNode`).  Each node
carries the data the API calls can return about it, together with failure
flags describing whether the corresponding remote calls raise:

* `metaOk`  — whether `service.files().get(fileId=...).execute()` succeeds;
* `listOk`  — whether `service.files().list(q="'id' in parents and trashed=false")`
  succeeds for this node's children;
* `chunks`  — the byte chunks `MediaIoBaseDownload.next_chunk` delivers in order;
* `failAt`  — `some k` iff the `(k+1)`-th `next_chunk` call raises (after `k`
  chunks were written); `none` or `some k ≥ chunks.length` means the transfer
  completes.

The local filesystem is a state `FS`: a set (list) of directory paths, an
association list of file paths to byte contents where a later `writeFile`
shadows an earlier one (last write wins, exactly as reopening a path with
mode `'wb'` does), and an event log.  The two operations that can fail on a
real filesystem do fail here: `FS.makedirs` (with `exist_ok=True`) raises
`FileExistsError` when the path exists as a file — uncaught in the walker,
so it aborts the run — and `FS.openwb` (`open(path, 'wb')`) raises
`IsADirectoryError` when the path is an existing directory — caught by
`download_file`'s handler, so the file is reported failed and not written.
The log records the per-item console notices the code prints (created
folder, skipped workspace file, downloaded, failed) plus one instrumentation
event, `dispatched`, emitted at the walker's call site of `download_file`,
so that theorems can talk about which children the walker hands to the file
materializer.

Exceptions are modelled by threading an `Option String` next to the state:
`some msg` means an exception carrying `msg` is propagating at that point.
Python's `try/except` in `download_file` is the wrapper that turns any such
`some msg` into a `failed` log entry and a normal return.
-/

/-- MIME type of a Drive folder (`'application/vnd.google-apps.folder'`). -/
def folderMime : String := "application/vnd.google-apps.folder"

/-- Prefix identifying Google Workspace (virtual) documents
(`'application/vnd.google-apps.'`). -/
def gappsPrefix : String := "application/vnd.google-apps."

/-- The per-node data the remote service reports, plus the failure behaviour
of the remote calls that target this node.  `name` and `mimeType` are the
fields the listing and metadata calls return (`fields="files(id, name,
mimeType)"`); `trashed` is the flag the listing query filters on. -/
structure NodeData where
  name : String
  mimeType : String
  trashed : Bool
  metaOk : Bool
  listOk : Bool
  chunks : List (List Nat)
  failAt : Option Nat
  deriving Repr, DecidableEq

/-- A remote node together with its children: the remote tree the run walks.
Node identity (the Drive file id) is represented by the node itself; all API
calls keyed by an id are modelled as functions of the corresponding `RNode`. -/
inductive RNode where
  | node (d : NodeData) (children : List RNode)
  deriving Repr

/-- The `NodeData` of a node. -/
def RNode.data : RNode → NodeData
  | .node d _ => d

/-- The children of a node. -/
def RNode.children : RNode → List RNode
  | .node _ c => c

/-- Console notices the code prints per item, plus `dispatched`, an
instrumentation event marking that the walker called `download_file` on a
child. -/
inductive Event where
  | createdFolder (name : String)
  | dispatched (name : String)
  | skippedWorkspace (name : String)
  | downloaded (name : String)
  | failed (name msg : String)
  deriving Repr, DecidableEq

/-- Local filesystem state: directory paths, file contents (later entries
shadow earlier ones with the same path), and the event log. -/
structure FS where
  dirs : List String
  files : List (String × List Nat)
  log : List Event
  deriving Repr, DecidableEq

/-- The empty local filesystem. -/
def FS.empty : FS := ⟨[], [], []⟩

/-- Append an event to the log. -/
def FS.logged (fs : FS) (e : Event) : FS := { fs with log := fs.log ++ [e] }

/-- First association for `q` in a `(path, bytes)` list. -/
def assocFind : List (String × List Nat) → String → Option (List Nat)
  | [], _ => none
  | (k, v) :: rest, q => if q = k then some v else assocFind rest q

/-- The bytes currently stored at path `p`, if a file exists there (the most
recent write to `p` shadows older ones). -/
def FS.read (fs : FS) (p : String) : Option (List Nat) := assocFind fs.files p

/-- Store bytes `b` at path `p`; a later write shadows an earlier one. -/
def FS.writeFile (fs : FS) (p : String) (b : List Nat) : FS :=
  { fs with files := (p, b) :: fs.files }

/-- Append a chunk to the file at `p` (the open handle writing chunk by
chunk; the handle was already obtained, so this never fails). -/
def FS.appendFile (fs : FS) (p : String) (c : List Nat) : FS :=
  fs.writeFile p (((fs.read p).getD []) ++ c)

/-- `os.makedirs(p, exist_ok=True)`: succeed silently if `p` is already a
directory, raise `FileExistsError` if `p` exists as a file, create the
directory otherwise. -/
def FS.makedirs (fs : FS) (p : String) : FS × Option String :=
  if p ∈ fs.dirs then (fs, none)
  else if (fs.read p).isSome then (fs, some "file exists")
  else ({ fs with dirs := p :: fs.dirs }, none)

/-- `open(p, 'wb')`: raise `IsADirectoryError` if `p` is an existing
directory, otherwise create or truncate the file at `p`. -/
def FS.openwb (fs : FS) (p : String) : FS × Option String :=
  if p ∈ fs.dirs then (fs, some "is a directory")
  else (fs.writeFile p [], none)

/-- `os.path.join` for the relative component names this code joins. -/
def pathJoin (p n : String) : String := p ++ "/" ++ n

/-- Prefix test on character lists. -/
def isPrefixOfChars : List Char → List Char → Bool
  | [], _ => true
  | _ :: _, [] => false
  | a :: as, b :: bs => a == b && isPrefixOfChars as bs

/-- Python `s.startswith(pre)`: `pre` is a prefix of `s` (expressed on the
character lists of the two strings). -/
def strStartsWith (s pre : String) : Bool := isPrefixOfChars pre.data s.data

/-- `service.files().get(fileId=...).execute()`: returns the node's metadata,
or raises (`.error`) when the id does not resolve or access is denied. -/
def getMeta : RNode → Except String NodeData
  | .node d _ => if d.metaOk then .ok d else .error "metadata fetch failed"

/-- The `while done is False: status, done = downloader.next_chunk()` loop of
`download_file`, writing each delivered chunk to the open file at `path`.
`failAt = some 0` means the next `next_chunk` call raises. -/
def downloadLoop (fs : FS) (path : String) (pending : List (List Nat)) (failAt : Option Nat) :
    FS × Option String :=
  match pending, failAt with
  | [], _ => (fs, none)
  | _ :: _, some 0 => (fs, some "chunk request failed")
  | c :: rest, some (k + 1) => downloadLoop (fs.appendFile path c) path rest (some k)
  | c :: rest, none => downloadLoop (fs.appendFile path c) path rest none

/-- The body of the `try:` block of `download_file`: metadata re-fetch,
Workspace-file skip check, then `open(file_path, 'wb')` (which creates or
truncates the file) and the chunked download loop.  The `Option String`
component is the exception propagating out of the body, if any. -/
def download_file_try (nd : RNode) (file_name local_path : String) (fs : FS) :
    FS × Option String :=
  match getMeta nd with
  | .error e => (fs, some e)
  | .ok d =>
    if strStartsWith d.mimeType gappsPrefix then
      (fs.logged (.skippedWorkspace file_name), none)
    else
      let file_path := pathJoin local_path file_name
      match fs.openwb file_path with
      | (fs1, some e) => (fs1, some e)
      | (fs1, none) =>
        let r := downloadLoop fs1 file_path d.chunks d.failAt
        match r.2 with
        | none => (r.1.logged (.downloaded file_name), none)
        | some e => (r.1, some e)

/-- Python `download_file`: the `try:` body wrapped in the catch-all
`except Exception as e:` that prints the file name and message and returns
normally.  The function is total: no exception escapes it. -/
def download_file (nd : RNode) (file_name local_path : String) (fs : FS) : FS :=
  match download_file_try nd file_name local_path fs with
  | (fs', none) => fs'
  | (fs', some e) => fs'.logged (.failed file_name e)

mutual

/-- Python `download_folder_contents`: list the children of the current
container (the query `q="'folder_id' in parents and trashed=false"` is
embedded by handing the raw children to `processItems`, which skips `trashed`
children — a trashed child never appears in the returned listing), then
process each returned item.  There is no `try/except` here: a listing
failure propagates as an exception (`some msg`). -/
def download_folder_contents : RNode → String → FS → FS × Option String
  | .node d children, local_path, fs =>
    if d.listOk then processItems children local_path fs
    else (fs, some "listing failed")

/-- The `for item in items:` loop of `download_folder_contents`: a folder
child gets a local directory (`os.makedirs(..., exist_ok=True)`, then the
`📁 Created folder` notice) and is recursed into; any other child is handed
to `download_file`.  There is no handler in this function: an exception from
`os.makedirs` (a file occupies the path) or from the recursive call
propagates, aborting the loop before the remaining siblings. -/
def processItems : List RNode → String → FS → FS × Option String
  | [], _, fs => (fs, none)
  | RNode.node d cch :: rest, local_path, fs =>
    if d.trashed then processItems rest local_path fs
    else if d.mimeType = folderMime then
      let subfolder_path := pathJoin local_path d.name
      match fs.makedirs subfolder_path with
      | (fs1, some e) => (fs1, some e)
      | (fs1, none) =>
        match download_folder_contents (RNode.node d cch) subfolder_path
            (fs1.logged (.createdFolder d.name)) with
        | (fs2, none) => processItems rest local_path fs2
        | (fs2, some e) => (fs2, some e)
    else
      processItems rest local_path
        (download_file (RNode.node d cch) d.name local_path (fs.logged (.dispatched d.name)))

end

/-- Python `download_folder`: fetch the root's metadata (uncaught — a failure
here propagates to the caller), create `local_path/folder_name` with
`exist_ok=True`, recursively download the contents, and return the local
root path.  The result is the filesystem state paired with either the
returned path or the propagating exception. -/
def download_folder (root : RNode) (local_path : String) (fs : FS) :
    FS × Except String String :=
  match getMeta root with
  | .error e => (fs, .error e)
  | .ok d =>
    let local_folder_path := pathJoin local_path d.name
    match fs.makedirs local_folder_path with
    | (fs1, some e) => (fs1, .error e)
    | (fs1, none) =>
      match download_folder_contents root local_folder_path fs1 with
      | (fs2, none) => (fs2, .ok local_folder_path)
      | (fs2, some e) => (fs2, .error e)

/-! ## Specification-side functions

These recompute, directly from the remote tree, what a fully successful run
is expected to create: the local directory paths of the reachable folder
nodes and the `(path, bytes)` entries of the reachable non-virtual files. -/

mutual

/-- Paths of the local directories corresponding to one non-trashed folder
child mirrored under `p` and its folder descendants (empty for trashed or
non-folder children). -/
def dirPathsOf : RNode → String → List String
  | .node d cch, p =>
    if d.trashed then []
    else if d.mimeType = folderMime then
      pathJoin p d.name :: dirPathsUnder cch (pathJoin p d.name)
    else []

/-- Paths of the local directories corresponding to the non-trashed folder
descendants of a list of siblings mirrored under `p` (the mirrored root
directory itself is not included). -/
def dirPathsUnder : List RNode → String → List String
  | [], _ => []
  | c :: rest, p => dirPathsOf c p ++ dirPathsUnder rest p

end

mutual

/-- `(path, bytes)` entries contributed by one child mirrored under `p`:
its own entry for a non-trashed, non-folder, non-virtual file, or its
subtree's entries for a non-trashed folder. -/
def fileEntriesOf : RNode → String → List (String × List Nat)
  | .node d cch, p =>
    if d.trashed then []
    else if d.mimeType = folderMime then fileEntriesUnder cch (pathJoin p d.name)
    else if strStartsWith d.mimeType gappsPrefix then []
    else [(pathJoin p d.name, d.chunks.flatten)]

/-- `(path, bytes)` of every reachable non-trashed, non-folder, non-virtual
file among the siblings mirrored under `p`, in traversal order; the bytes are
the concatenation of the chunks the remote source reports. -/
def fileEntriesUnder : List RNode → String → List (String × List Nat)
  | [], _ => []
  | c :: rest, p => fileEntriesOf c p ++ fileEntriesUnder rest p

end

mutual

/-- Local paths of the non-folder children contributed by one child mirrored
under `p`: the child's own path when it is a non-trashed non-folder node
(virtual documents included — every such path is where the walk may attempt
to open a file), or its subtree's such paths for a non-trashed folder. -/
def filePathsOf : RNode → String → List String
  | .node d cch, p =>
    if d.trashed then []
    else if d.mimeType = folderMime then filePathsUnder cch (pathJoin p d.name)
    else [pathJoin p d.name]

/-- Local paths of every reachable non-trashed, non-folder child among the
siblings mirrored under `p`. -/
def filePathsUnder : List RNode → String → List String
  | [], _ => []
  | c :: rest, p => filePathsOf c p ++ filePathsUnder rest p

end

mutual

/-- Every remote call a run reaching this child would make on it succeeds:
a folder child lists successfully (recursively), a non-folder child has a
working metadata fetch and a complete transfer.  Trashed children are
unconstrained (no call ever targets them). -/
def allOkNode : RNode → Bool
  | .node d cch =>
    d.trashed ||
      (if d.mimeType = folderMime then d.listOk && allOkList cch
       else d.metaOk && (d.failAt.isNone || d.chunks.length ≤ d.failAt.getD 0))

/-- Every remote call a run starting at these siblings would make succeeds. -/
def allOkList : List RNode → Bool
  | [] => true
  | c :: rest => allOkNode c && allOkList rest

end

mutual

/-- Every listing call a run reaching this child would make succeeds;
metadata fetches and transfers of file children are unconstrained. -/
def listingsOkNode : RNode → Bool
  | .node d cch =>
    d.trashed || d.mimeType ≠ folderMime || (d.listOk && listingsOk cch)

/-- Every listing call a run starting at these siblings would make succeeds. -/
def listingsOk : List RNode → Bool
  | [] => true
  | c :: rest => listingsOkNode c && listingsOk rest

end

/-- All remote calls of a run rooted at this node succeed. -/
def allOkRoot (root : RNode) : Bool :=
  root.data.metaOk && root.data.listOk && allOkList root.children

/-- Take `some a` if present, otherwise `b`. -/
def firstSome (a b : Option (List Nat)) : Option (List Nat) :=
  match a with
  | some v => some v
  | none => b

/-- The bytes associated to `q` by the LAST entry of `l` carrying `q`
(later entries shadow earlier ones). -/
def lookupLast (l : List (String × List Nat)) (q : String) : Option (List Nat) :=
  assocFind l.reverse q

/-- The chunks actually written when the loop runs over `pending` with
failure behaviour `failAt`. -/
def loopPrefix (pending : List (List Nat)) (failAt : Option Nat) : List (List Nat) :=
  match failAt with
  | none => pending
  | some k => pending.take k

/-- The exception the download loop raises, if any. -/
def loopErr (pending : List (List Nat)) (failAt : Option Nat) : Option String :=
  match failAt with
  | none => none
  | some k => if k < pending.length then some "chunk request failed" else none


/-! ## Concrete remote trees used to evaluate the development

Small fixtures: fully successful files and folders, plus nodes whose remote
calls fail in specific ways. -/

/-- A plain file node whose remote calls all succeed. -/
def fileNode (name : String) (chunks : List (List Nat)) : RNode :=
  .node ⟨name, "text/plain", false, true, true, chunks, none⟩ []

/-- A folder node whose remote calls all succeed. -/
def folderNode (name : String) (ch : List RNode) : RNode :=
  .node ⟨name, folderMime, false, true, true, [], none⟩ ch

/-- A Google Workspace (virtual) document child. -/
def vdocData : NodeData :=
  ⟨"doc", "application/vnd.google-apps.document", false, true, true, [], none⟩

/-- A folder whose children-listing call raises. -/
def listFailFolderData : NodeData := ⟨"C", folderMime, false, true, false, [], none⟩

/-- A file whose metadata re-fetch raises. -/
def metaFailData : NodeData := ⟨"m", "text/plain", false, false, true, [[1]], none⟩

/-- A file whose transfer raises after one of three chunks was written. -/
def streamFailData : NodeData := ⟨"x", "text/plain", false, true, true, [[1], [2], [3]], some 1⟩

/-- A trashed file child. -/
def trashedFileData : NodeData := ⟨"t", "text/plain", true, true, true, [[9]], none⟩

/-- Root with two sibling files that share the name "a" but hold different
bytes. -/
def dupTree : RNode := folderNode "R" [fileNode "a" [[1]], fileNode "a" [[2]]]

/-- The end-to-end scenario tree: root "R" holds "a.txt" (10 bytes) and
subfolder "S" holding "b.txt" (5 bytes). -/
def scenTree : RNode :=
  folderNode "R"
    [fileNode "a.txt" [[0, 1, 2, 3, 4, 5, 6, 7, 8, 9]],
     folderNode "S" [fileNode "b.txt" [[10, 11, 12, 13, 14]]]]

/-- Root holding a single virtual-document child. -/
def vdocTree : RNode := folderNode "R" [RNode.node vdocData []]

/-- Root holding a folder "C" whose listing raises, followed by a sibling
folder "D". -/
def listFailTree : RNode :=
  folderNode "R" [RNode.node listFailFolderData [], folderNode "D" []]

/-- Root holding a file "x" whose transfer fails mid-stream, followed by a
healthy sibling file "y". -/
def partialFailTree : RNode :=
  folderNode "R" [RNode.node streamFailData [], fileNode "y" [[7]]]

/-- A root whose own metadata fetch raises. -/
def metaFailRoot : RNode := RNode.node ⟨"R", folderMime, false, false, true, [], none⟩ []

/-- A destination filesystem already populated by an earlier run. -/
def prePopulated : FS := ⟨["dst/R", "dst/R/S"], [("dst/R/a.txt", [0, 1])], []⟩


/-- Root with a failing file child "m", then a file "S", then a folder also
named "S": the folder's `makedirs` lands on the file-occupied path. -/
def cexC3Tree : RNode :=
  folderNode "R" [RNode.node metaFailData [], fileNode "S" [[1]], folderNode "S" []]

/-- Root holding folder "A" whose children are a healthy file "y", the
failing-listing folder "C", and a folder "D": the listing error arises one
level down, after a processed sibling. -/
def deepTree : RNode :=
  folderNode "R"
    [folderNode "A" [fileNode "y" [[7]], RNode.node listFailFolderData [], folderNode "D" []]]

/-! ## Basic filesystem lemmas -/

theorem dirs_logged (fs : FS) (e : Event) : (fs.logged e).dirs = fs.dirs := rfl

theorem files_logged (fs : FS) (e : Event) : (fs.logged e).files = fs.files := rfl

theorem read_logged (fs : FS) (e : Event) (q : String) : (fs.logged e).read q = fs.read q := rfl

theorem log_logged (fs : FS) (e : Event) : (fs.logged e).log = fs.log ++ [e] := rfl

theorem read_writeFile (fs : FS) (p : String) (b : List Nat) (q : String) :
    (fs.writeFile p b).read q = if q = p then some b else fs.read q := by
  simp [FS.writeFile, FS.read, assocFind]

theorem dirs_writeFile (fs : FS) (p : String) (b : List Nat) :
    (fs.writeFile p b).dirs = fs.dirs := rfl

theorem log_writeFile (fs : FS) (p : String) (b : List Nat) :
    (fs.writeFile p b).log = fs.log := rfl

theorem read_appendFile_self (fs : FS) (p : String) (c : List Nat) :
    (fs.appendFile p c).read p = some ((fs.read p).getD [] ++ c) := by
  simp [FS.appendFile, read_writeFile]

theorem read_appendFile_ne (fs : FS) (p : String) (c : List Nat) (q : String) (h : q ≠ p) :
    (fs.appendFile p c).read q = fs.read q := by
  simp [FS.appendFile, read_writeFile, h]

theorem dirs_appendFile (fs : FS) (p : String) (c : List Nat) :
    (fs.appendFile p c).dirs = fs.dirs := rfl

theorem log_appendFile (fs : FS) (p : String) (c : List Nat) :
    (fs.appendFile p c).log = fs.log := rfl

theorem makedirs_mem (fs : FS) (p : String) (h : p ∈ fs.dirs) :
    fs.makedirs p = (fs, none) := by
  simp [FS.makedirs, h]

theorem makedirs_file (fs : FS) (p : String) (h1 : p ∉ fs.dirs)
    (h2 : (fs.read p).isSome) : fs.makedirs p = (fs, some "file exists") := by
  simp [FS.makedirs, h1, h2]

/-- When no file occupies `p`, `makedirs` succeeds (idempotently): same
files and log, and the directory set gains exactly `p`. -/
theorem makedirs_spec (fs : FS) (p : String) (h : fs.read p = none) :
    (fs.makedirs p).2 = none ∧
    (fs.makedirs p).1.files = fs.files ∧
    (fs.makedirs p).1.log = fs.log ∧
    (∀ q, q ∈ (fs.makedirs p).1.dirs ↔ q = p ∨ q ∈ fs.dirs) := by
  by_cases hd : p ∈ fs.dirs
  · rw [makedirs_mem fs p hd]
    refine ⟨rfl, rfl, rfl, ?_⟩
    intro q
    constructor
    · exact Or.inr
    · rintro (rfl | hq)
      · exact hd
      · exact hq
  · have : fs.makedirs p = ({ fs with dirs := p :: fs.dirs }, none) := by
      simp [FS.makedirs, hd, h]
    rw [this]
    refine ⟨rfl, rfl, rfl, ?_⟩
    intro q
    simp [List.mem_cons]

theorem makedirs_read (fs : FS) (p : String) (h : fs.read p = none) (q : String) :
    (fs.makedirs p).1.read q = fs.read q := by
  rw [FS.read, (makedirs_spec fs p h).2.1, FS.read]

theorem openwb_dir (fs : FS) (p : String) (h : p ∈ fs.dirs) :
    fs.openwb p = (fs, some "is a directory") := by
  simp [FS.openwb, h]

theorem openwb_ok (fs : FS) (p : String) (h : p ∉ fs.dirs) :
    fs.openwb p = (fs.writeFile p [], none) := by
  simp [FS.openwb, h]

/-! ## The chunked download loop -/

theorem downloadLoop_spec (pending : List (List Nat)) :
    ∀ (fs : FS) (path : String) (failAt : Option Nat),
      (downloadLoop fs path pending failAt).1.dirs = fs.dirs ∧
      (downloadLoop fs path pending failAt).1.log = fs.log ∧
      (∀ q, q ≠ path → (downloadLoop fs path pending failAt).1.read q = fs.read q) ∧
      (∀ acc, fs.read path = some acc →
        (downloadLoop fs path pending failAt).1.read path =
          some (acc ++ (loopPrefix pending failAt).flatten)) ∧
      (downloadLoop fs path pending failAt).2 = loopErr pending failAt := by
  induction pending with
  | nil =>
    intro fs path failAt
    refine ⟨rfl, rfl, fun q _ => rfl, ?_, ?_⟩
    · intro acc hacc
      simp [downloadLoop, loopPrefix, hacc]
      cases failAt <;> simp
    · cases failAt <;> simp [downloadLoop, loopErr]
  | cons c rest ih =>
    intro fs path failAt
    match failAt with
    | some 0 =>
      refine ⟨rfl, rfl, fun q _ => rfl, ?_, ?_⟩
      · intro acc hacc; simp [downloadLoop, loopPrefix, hacc]
      · simp [downloadLoop, loopErr]
    | some (k + 1) =>
      obtain ⟨ihd, ihl, ihq, ihp, ihe⟩ := ih (fs.appendFile path c) path (some k)
      refine ⟨?_, ?_, ?_, ?_, ?_⟩
      · simpa [downloadLoop, dirs_appendFile] using ihd
      · simpa [downloadLoop, log_appendFile] using ihl
      · intro q hq
        simpa [downloadLoop, read_appendFile_ne fs path c q hq] using ihq q hq
      · intro acc hacc
        have h1 : (fs.appendFile path c).read path = some (acc ++ c) := by
          simp [read_appendFile_self, hacc]
        have := ihp (acc ++ c) h1
        simpa [downloadLoop, loopPrefix] using this
      · simpa [downloadLoop, loopErr, Nat.succ_lt_succ_iff] using ihe
    | none =>
      obtain ⟨ihd, ihl, ihq, ihp, ihe⟩ := ih (fs.appendFile path c) path none
      refine ⟨?_, ?_, ?_, ?_, ?_⟩
      · simpa [downloadLoop, dirs_appendFile] using ihd
      · simpa [downloadLoop, log_appendFile] using ihl
      · intro q hq
        simpa [downloadLoop, read_appendFile_ne fs path c q hq] using ihq q hq
      · intro acc hacc
        have h1 : (fs.appendFile path c).read path = some (acc ++ c) := by
          simp [read_appendFile_self, hacc]
        have := ihp (acc ++ c) h1
        simpa [downloadLoop, loopPrefix] using this
      · simpa [downloadLoop, loopErr] using ihe

theorem loopPrefix_eq_of_err_none (pending : List (List Nat)) (failAt : Option Nat)
    (h : loopErr pending failAt = none) : loopPrefix pending failAt = pending := by
  match failAt with
  | none => rfl
  | some k =>
    simp only [loopErr] at h
    by_cases hk : k < pending.length
    · simp [hk] at h
    · exact List.take_of_length_le (Nat.le_of_not_lt hk)

theorem transfer_ok_loopErr (d : NodeData)
    (h : (d.failAt.isNone || decide (d.chunks.length ≤ d.failAt.getD 0)) = true) :
    loopErr d.chunks d.failAt = none := by
  match hf : d.failAt with
  | none => rfl
  | some k =>
    rw [hf] at h
    simp only [Option.isNone_some, Bool.false_or, decide_eq_true_eq, Option.getD_some] at h
    simp only [loopErr]
    rw [if_neg (by omega)]

/-! ## `download_file` case analysis -/

/-- Metadata re-fetch raises: the exception is caught, a `failed` notice is
printed, and nothing else changes. -/
theorem download_file_metaFail (d : NodeData) (cch : List RNode) (name lp : String) (fs : FS)
    (h : d.metaOk = false) :
    download_file (.node d cch) name lp fs = fs.logged (.failed name "metadata fetch failed") := by
  simp [download_file, download_file_try, getMeta, h]

/-- Workspace (virtual) file: metadata fetched, skip notice printed, no byte
stream opened, filesystem untouched. -/
theorem download_file_skip (d : NodeData) (cch : List RNode) (name lp : String) (fs : FS)
    (h1 : d.metaOk = true) (h2 : strStartsWith d.mimeType gappsPrefix = true) :
    download_file (.node d cch) name lp fs = fs.logged (.skippedWorkspace name) := by
  simp [download_file, download_file_try, getMeta, h1, h2]

/-- The destination path is an existing directory: `open('wb')` raises
`IsADirectoryError`, the wrapper catches it, and nothing is written. -/
theorem download_file_openFail (d : NodeData) (cch : List RNode) (name lp : String) (fs : FS)
    (h1 : d.metaOk = true) (h2 : strStartsWith d.mimeType gappsPrefix = false)
    (h3 : pathJoin lp name ∈ fs.dirs) :
    download_file (.node d cch) name lp fs = fs.logged (.failed name "is a directory") := by
  rw [download_file, download_file_try]
  simp only [getMeta, h1, if_pos, h2, Bool.false_eq_true, if_false,
    openwb_dir fs (pathJoin lp name) h3]

theorem download_file_try_stream (d : NodeData) (cch : List RNode) (name lp : String) (fs : FS)
    (h1 : d.metaOk = true) (h2 : strStartsWith d.mimeType gappsPrefix = false)
    (h3 : pathJoin lp name ∉ fs.dirs) :
    download_file_try (.node d cch) name lp fs =
      (match (downloadLoop (fs.writeFile (pathJoin lp name) []) (pathJoin lp name)
          d.chunks d.failAt).2 with
       | none => ((downloadLoop (fs.writeFile (pathJoin lp name) []) (pathJoin lp name)
           d.chunks d.failAt).1.logged (.downloaded name), none)
       | some e => ((downloadLoop (fs.writeFile (pathJoin lp name) []) (pathJoin lp name)
           d.chunks d.failAt).1, some e)) := by
  rw [download_file_try]
  simp only [getMeta, h1, if_pos, h2, Bool.false_eq_true, if_false,
    openwb_ok fs (pathJoin lp name) h3]

/-- Successful regular download (destination not an existing directory): the
file holds exactly the concatenation of the remote chunks; nothing else
changes. -/
theorem download_file_ok (d : NodeData) (cch : List RNode) (name lp : String) (fs : FS)
    (h1 : d.metaOk = true) (h2 : strStartsWith d.mimeType gappsPrefix = false)
    (h3 : pathJoin lp name ∉ fs.dirs)
    (h4 : loopErr d.chunks d.failAt = none) :
    (download_file (.node d cch) name lp fs).dirs = fs.dirs ∧
    (download_file (.node d cch) name lp fs).log = fs.log ++ [Event.downloaded name] ∧
    (∀ q, q ≠ pathJoin lp name → (download_file (.node d cch) name lp fs).read q = fs.read q) ∧
    (download_file (.node d cch) name lp fs).read (pathJoin lp name) =
      some d.chunks.flatten := by
  obtain ⟨ld, ll, lq, lpp, le⟩ :=
    downloadLoop_spec d.chunks (fs.writeFile (pathJoin lp name) []) (pathJoin lp name) d.failAt
  rw [h4] at le
  have hdf : download_file (.node d cch) name lp fs =
      (downloadLoop (fs.writeFile (pathJoin lp name) []) (pathJoin lp name)
        d.chunks d.failAt).1.logged (.downloaded name) := by
    rw [download_file, download_file_try_stream d cch name lp fs h1 h2 h3, le]
  refine ⟨?_, ?_, ?_, ?_⟩
  · rw [hdf, dirs_logged, ld, dirs_writeFile]
  · rw [hdf, log_logged, ll, log_writeFile]
  · intro q hq
    rw [hdf, read_logged, lq q hq, read_writeFile]
    simp [hq]
  · have hbase : (fs.writeFile (pathJoin lp name) []).read (pathJoin lp name) = some [] := by
      simp [read_writeFile]
    rw [hdf, read_logged, lpp [] hbase, loopPrefix_eq_of_err_none d.chunks d.failAt h4]
    simp

/-- Mid-stream failure (destination not an existing directory, so the open
succeeded): the exception is caught and reported; the already-opened
destination file remains on disk holding exactly the chunks written before
the failure. -/
theorem download_file_failStream (d : NodeData) (cch : List RNode) (name lp : String) (fs : FS)
    (e : String) (h1 : d.metaOk = true) (h2 : strStartsWith d.mimeType gappsPrefix = false)
    (h3 : pathJoin lp name ∉ fs.dirs)
    (h4 : loopErr d.chunks d.failAt = some e) :
    (download_file (.node d cch) name lp fs).dirs = fs.dirs ∧
    (download_file (.node d cch) name lp fs).log = fs.log ++ [Event.failed name e] ∧
    (∀ q, q ≠ pathJoin lp name → (download_file (.node d cch) name lp fs).read q = fs.read q) ∧
    (download_file (.node d cch) name lp fs).read (pathJoin lp name) =
      some (loopPrefix d.chunks d.failAt).flatten := by
  obtain ⟨ld, ll, lq, lpp, le⟩ :=
    downloadLoop_spec d.chunks (fs.writeFile (pathJoin lp name) []) (pathJoin lp name) d.failAt
  rw [h4] at le
  have hdf : download_file (.node d cch) name lp fs =
      (downloadLoop (fs.writeFile (pathJoin lp name) []) (pathJoin lp name)
        d.chunks d.failAt).1.logged (.failed name e) := by
    rw [download_file, download_file_try_stream d cch name lp fs h1 h2 h3, le]
  refine ⟨?_, ?_, ?_, ?_⟩
  · rw [hdf, dirs_logged, ld, dirs_writeFile]
  · rw [hdf, log_logged, ll, log_writeFile]
  · intro q hq
    rw [hdf, read_logged, lq q hq, read_writeFile]
    simp [hq]
  · have hbase : (fs.writeFile (pathJoin lp name) []).read (pathJoin lp name) = some [] := by
      simp [read_writeFile]
    rw [hdf, read_logged, lpp [] hbase]
    simp

/-- Frame property of `download_file`, valid on every control path
(metadata failure, virtual skip, open failure, clean or failing stream): the
directory set is untouched and only the destination path's content can
change. -/
theorem download_file_frame (nd : RNode) (name lp : String) (fs : FS) :
    (download_file nd name lp fs).dirs = fs.dirs ∧
    (∀ q, q ≠ pathJoin lp name → (download_file nd name lp fs).read q = fs.read q) := by
  match nd with
  | RNode.node d cch =>
    by_cases h1 : d.metaOk = true
    · by_cases h2 : strStartsWith d.mimeType gappsPrefix = true
      · rw [download_file_skip d cch name lp fs h1 h2]
        exact ⟨rfl, fun q _ => rfl⟩
      · have h2' : strStartsWith d.mimeType gappsPrefix = false := by simpa using h2
        by_cases h3 : pathJoin lp name ∈ fs.dirs
        · rw [download_file_openFail d cch name lp fs h1 h2' h3]
          exact ⟨rfl, fun q _ => rfl⟩
        · match he : loopErr d.chunks d.failAt with
          | none =>
            obtain ⟨a, _, c, _⟩ := download_file_ok d cch name lp fs h1 h2' h3 he
            exact ⟨a, c⟩
          | some e =>
            obtain ⟨a, _, c, _⟩ := download_file_failStream d cch name lp fs e h1 h2' h3 he
            exact ⟨a, c⟩
    · have h1' : d.metaOk = false := by simpa using h1
      rw [download_file_metaFail d cch name lp fs h1']
      exact ⟨rfl, fun q _ => rfl⟩

/-! ## `firstSome` / `lookupLast` algebra -/

theorem firstSome_assoc (a b c : Option (List Nat)) :
    firstSome (firstSome a b) c = firstSome a (firstSome b c) := by
  cases a <;> rfl

theorem firstSome_none_left (b : Option (List Nat)) : firstSome none b = b := rfl

theorem assocFind_append (X Y : List (String × List Nat)) (q : String) :
    assocFind (X ++ Y) q = firstSome (assocFind X q) (assocFind Y q) := by
  induction X with
  | nil => simp [assocFind, firstSome]
  | cons kv X' ih =>
    obtain ⟨k, v⟩ := kv
    by_cases h : q = k <;> simp [assocFind, firstSome, h, ih]

theorem lookupLast_nil (q : String) : lookupLast [] q = none := rfl

theorem lookupLast_cons (k : String) (v : List Nat) (l : List (String × List Nat)) (q : String) :
    lookupLast ((k, v) :: l) q = firstSome (lookupLast l q) (if q = k then some v else none) := by
  by_cases h : q = k <;> simp [lookupLast, assocFind_append, assocFind, h]

theorem lookupLast_append (A B : List (String × List Nat)) (q : String) :
    lookupLast (A ++ B) q = firstSome (lookupLast B q) (lookupLast A q) := by
  simp [lookupLast, assocFind_append]

theorem assocFind_eq_none (l : List (String × List Nat)) (q : String)
    (h : q ∉ l.map Prod.fst) : assocFind l q = none := by
  induction l with
  | nil => rfl
  | cons kv rest ih =>
    obtain ⟨k, v⟩ := kv
    simp only [List.map_cons, List.mem_cons, not_or] at h
    simp [assocFind, h.1, ih h.2]

theorem lookupLast_eq_none (l : List (String × List Nat)) (q : String)
    (h : q ∉ l.map Prod.fst) : lookupLast l q = none := by
  apply assocFind_eq_none
  intro hmem
  exact h (by simpa [List.map_reverse] using hmem)

/-- When no two entries of `l` share a path, `lookupLast` returns the bytes
of the (unique) entry at that path. -/
theorem lookupLast_of_nodup (l : List (String × List Nat)) (q : String) (b : List Nat)
    (hnd : (l.map Prod.fst).Nodup) (hmem : (q, b) ∈ l) : lookupLast l q = some b := by
  induction l with
  | nil => cases hmem
  | cons kv rest ih =>
    obtain ⟨k, v⟩ := kv
    simp only [List.map_cons, List.nodup_cons] at hnd
    rw [lookupLast_cons]
    rcases List.mem_cons.mp hmem with heq | hmem'
    · obtain ⟨hq, hb⟩ : q = k ∧ b = v := by
        constructor
        · exact congrArg Prod.fst heq
        · exact congrArg Prod.snd heq
      subst hq hb
      rw [lookupLast_eq_none rest q (fun hmem2 => hnd.1 hmem2), if_pos rfl]
      rfl
    · have hq : q ≠ k := by
        intro hqk
        exact hnd.1 (hqk ▸ List.mem_map_of_mem Prod.fst hmem')
      rw [ih hnd.2 hmem']
      rfl

/-! ## Branch equations of the walker -/

theorem processItems_nil (p : String) (fs : FS) : processItems [] p fs = (fs, none) := by
  simp [processItems]

theorem processItems_trashed (d : NodeData) (cch rest : List RNode) (p : String) (fs : FS)
    (h : d.trashed = true) :
    processItems (RNode.node d cch :: rest) p fs = processItems rest p fs := by
  simp [processItems, h]

theorem processItems_file (d : NodeData) (cch rest : List RNode) (p : String) (fs : FS)
    (h1 : d.trashed = false) (h2 : d.mimeType ≠ folderMime) :
    processItems (RNode.node d cch :: rest) p fs =
      processItems rest p
        (download_file (RNode.node d cch) d.name p (fs.logged (.dispatched d.name))) := by
  simp [processItems, h1, h2]

theorem processItems_folder (d : NodeData) (cch rest : List RNode) (p : String) (fs : FS)
    (h1 : d.trashed = false) (h2 : d.mimeType = folderMime) :
    processItems (RNode.node d cch :: rest) p fs =
      (match fs.makedirs (pathJoin p d.name) with
       | (fs1, some e) => (fs1, some e)
       | (fs1, none) =>
         match download_folder_contents (RNode.node d cch) (pathJoin p d.name)
             (fs1.logged (.createdFolder d.name)) with
         | (fs2, none) => processItems rest p fs2
         | (fs2, some e) => (fs2, some e)) := by
  simp [processItems, h1, h2]

theorem download_folder_contents_listOk (d : NodeData) (cch : List RNode) (lp : String) (fs : FS)
    (h : d.listOk = true) :
    download_folder_contents (RNode.node d cch) lp fs = processItems cch lp fs := by
  simp [download_folder_contents, h]

theorem download_folder_contents_listFail (d : NodeData) (cch : List RNode) (lp : String)
    (fs : FS) (h : d.listOk = false) :
    download_folder_contents (RNode.node d cch) lp fs = (fs, some "listing failed") := by
  simp [download_folder_contents, h]

/-- Processing a concatenated child list runs the first part, and on its
normal completion continues with the second from the resulting state; an
exception from the first part propagates past the whole remainder. -/
theorem processItems_append (A B : List RNode) (p : String) :
    ∀ fs : FS, processItems (A ++ B) p fs =
      (match processItems A p fs with
       | (fs1, none) => processItems B p fs1
       | (fs1, some e) => (fs1, some e)) := by
  induction A with
  | nil =>
    intro fs
    rw [List.nil_append, processItems_nil]
  | cons c A' ih =>
    intro fs
    match c with
    | RNode.node d cch =>
      by_cases ht : d.trashed = true
      · rw [List.cons_append, processItems_trashed d cch (A' ++ B) p fs ht,
          processItems_trashed d cch A' p fs ht, ih fs]
      · have ht' : d.trashed = false := by simpa using ht
        by_cases hf : d.mimeType = folderMime
        · rw [List.cons_append, processItems_folder d cch (A' ++ B) p fs ht' hf,
            processItems_folder d cch A' p fs ht' hf]
          rcases hmk : fs.makedirs (pathJoin p d.name) with ⟨fs1, err1⟩
          cases err1 with
          | none =>
            rcases hdc : download_folder_contents (RNode.node d cch) (pathJoin p d.name)
                (fs1.logged (.createdFolder d.name)) with ⟨fs2, err2⟩
            simp only [hdc]
            cases err2 with
            | none => exact ih fs2
            | some e => rfl
          | some e => rfl
        · rw [List.cons_append, processItems_file d cch (A' ++ B) p fs ht' hf,
            processItems_file d cch A' p fs ht' hf,
            ih (download_file (RNode.node d cch) d.name p (fs.logged (.dispatched d.name)))]

/-! ## Branch equations of the specification-side functions -/

theorem dirPathsUnder_nil (p : String) : dirPathsUnder [] p = [] := by
  simp [dirPathsUnder]

theorem dirPathsUnder_cons (c : RNode) (rest : List RNode) (p : String) :
    dirPathsUnder (c :: rest) p = dirPathsOf c p ++ dirPathsUnder rest p := by
  simp [dirPathsUnder]

theorem dirPathsOf_trashed (d : NodeData) (cch : List RNode) (p : String)
    (h : d.trashed = true) : dirPathsOf (.node d cch) p = [] := by
  simp [dirPathsOf, h]

theorem dirPathsOf_folder (d : NodeData) (cch : List RNode) (p : String)
    (h1 : d.trashed = false) (h2 : d.mimeType = folderMime) :
    dirPathsOf (.node d cch) p =
      pathJoin p d.name :: dirPathsUnder cch (pathJoin p d.name) := by
  simp [dirPathsOf, h1, h2]

theorem dirPathsOf_file (d : NodeData) (cch : List RNode) (p : String)
    (h1 : d.trashed = false) (h2 : d.mimeType ≠ folderMime) :
    dirPathsOf (.node d cch) p = [] := by
  simp [dirPathsOf, h1, h2]

theorem fileEntriesUnder_nil (p : String) : fileEntriesUnder [] p = [] := by
  simp [fileEntriesUnder]

theorem fileEntriesUnder_cons (c : RNode) (rest : List RNode) (p : String) :
    fileEntriesUnder (c :: rest) p = fileEntriesOf c p ++ fileEntriesUnder rest p := by
  simp [fileEntriesUnder]

theorem fileEntriesOf_trashed (d : NodeData) (cch : List RNode) (p : String)
    (h : d.trashed = true) : fileEntriesOf (.node d cch) p = [] := by
  simp [fileEntriesOf, h]

theorem fileEntriesOf_folder (d : NodeData) (cch : List RNode) (p : String)
    (h1 : d.trashed = false) (h2 : d.mimeType = folderMime) :
    fileEntriesOf (.node d cch) p = fileEntriesUnder cch (pathJoin p d.name) := by
  simp [fileEntriesOf, h1, h2]

theorem fileEntriesOf_virtual (d : NodeData) (cch : List RNode) (p : String)
    (h1 : d.trashed = false) (h2 : d.mimeType ≠ folderMime)
    (h3 : strStartsWith d.mimeType gappsPrefix = true) :
    fileEntriesOf (.node d cch) p = [] := by
  simp [fileEntriesOf, h1, h2, h3]

theorem fileEntriesOf_file (d : NodeData) (cch : List RNode) (p : String)
    (h1 : d.trashed = false) (h2 : d.mimeType ≠ folderMime)
    (h3 : strStartsWith d.mimeType gappsPrefix = false) :
    fileEntriesOf (.node d cch) p = [(pathJoin p d.name, d.chunks.flatten)] := by
  simp [fileEntriesOf, h1, h2, h3]

theorem filePathsUnder_nil (p : String) : filePathsUnder [] p = [] := by
  simp [filePathsUnder]

theorem filePathsUnder_cons (c : RNode) (rest : List RNode) (p : String) :
    filePathsUnder (c :: rest) p = filePathsOf c p ++ filePathsUnder rest p := by
  simp [filePathsUnder]

theorem filePathsOf_trashed (d : NodeData) (cch : List RNode) (p : String)
    (h : d.trashed = true) : filePathsOf (.node d cch) p = [] := by
  simp [filePathsOf, h]

theorem filePathsOf_folder (d : NodeData) (cch : List RNode) (p : String)
    (h1 : d.trashed = false) (h2 : d.mimeType = folderMime) :
    filePathsOf (.node d cch) p = filePathsUnder cch (pathJoin p d.name) := by
  simp [filePathsOf, h1, h2]

theorem filePathsOf_file (d : NodeData) (cch : List RNode) (p : String)
    (h1 : d.trashed = false) (h2 : d.mimeType ≠ folderMime) :
    filePathsOf (.node d cch) p = [pathJoin p d.name] := by
  simp [filePathsOf, h1, h2]

theorem allOkList_cons (c : RNode) (rest : List RNode) :
    allOkList (c :: rest) = (allOkNode c && allOkList rest) := by
  simp [allOkList]

theorem listingsOk_cons (c : RNode) (rest : List RNode) :
    listingsOk (c :: rest) = (listingsOkNode c && listingsOk rest) := by
  simp [listingsOk]

/-- The paths of the expected file entries are among the local paths of the
reachable non-folder children. -/
theorem fileEntries_paths_sub (N : Nat) :
    ∀ (items : List RNode), sizeOf items < N → ∀ (p q : String),
      q ∈ (fileEntriesUnder items p).map Prod.fst → q ∈ filePathsUnder items p := by
  induction N with
  | zero => intro items h; exact absurd h (Nat.not_lt_zero _)
  | succ n ih =>
    intro items hsz p q hq
    match items with
    | [] => simp [fileEntriesUnder_nil] at hq
    | RNode.node d cch :: rest =>
      have hszc : sizeOf cch < n := by simp at hsz; omega
      have hszr : sizeOf rest < n := by simp at hsz; omega
      rw [fileEntriesUnder_cons, List.map_append, List.mem_append] at hq
      rw [filePathsUnder_cons, List.mem_append]
      rcases hq with hq | hq
      · left
        by_cases ht : d.trashed = true
        · rw [fileEntriesOf_trashed d cch p ht] at hq
          simp at hq
        · have ht' : d.trashed = false := by simpa using ht
          by_cases hf : d.mimeType = folderMime
          · rw [fileEntriesOf_folder d cch p ht' hf] at hq
            rw [filePathsOf_folder d cch p ht' hf]
            exact ih cch hszc (pathJoin p d.name) q hq
          · rw [filePathsOf_file d cch p ht' hf]
            by_cases hv : strStartsWith d.mimeType gappsPrefix = true
            · rw [fileEntriesOf_virtual d cch p ht' hf hv] at hq
              simp at hq
            · have hv' : strStartsWith d.mimeType gappsPrefix = false := by simpa using hv
              rw [fileEntriesOf_file d cch p ht' hf hv'] at hq
              simpa using hq
      · right
        exact ih rest hszr p q hq

/-- Refined branch equation: folder child whose local directory creation
fails — the exception propagates, aborting the loop. -/
theorem processItems_folder_mkFail (d : NodeData) (cch rest : List RNode) (p : String)
    (fs fs1 : FS) (e : String) (h1 : d.trashed = false) (h2 : d.mimeType = folderMime)
    (hmk : fs.makedirs (pathJoin p d.name) = (fs1, some e)) :
    processItems (RNode.node d cch :: rest) p fs = (fs1, some e) := by
  rw [processItems_folder d cch rest p fs h1 h2, hmk]

/-- Refined branch equation: folder child whose local directory creation
succeeds — recurse, then either continue or propagate the exception. -/
theorem processItems_folder_mkOk (d : NodeData) (cch rest : List RNode) (p : String)
    (fs fs1 : FS) (h1 : d.trashed = false) (h2 : d.mimeType = folderMime)
    (hmk : fs.makedirs (pathJoin p d.name) = (fs1, none)) :
    processItems (RNode.node d cch :: rest) p fs =
      (match download_folder_contents (RNode.node d cch) (pathJoin p d.name)
          (fs1.logged (.createdFolder d.name)) with
       | (fs2, none) => processItems rest p fs2
       | (fs2, some e) => (fs2, some e)) := by
  rw [processItems_folder d cch rest p fs h1 h2, hmk]

/-- `download_folder` after a successful root fetch and root directory
creation. -/
theorem download_folder_mkOk (d : NodeData) (ch : List RNode) (dest : String)
    (fs fs1 : FS) (hm : d.metaOk = true)
    (hmk : fs.makedirs (pathJoin dest d.name) = (fs1, none)) :
    download_folder (RNode.node d ch) dest fs =
      (match download_folder_contents (RNode.node d ch) (pathJoin dest d.name) fs1 with
       | (fs2, none) => (fs2, .ok (pathJoin dest d.name))
       | (fs2, some e) => (fs2, .error e)) := by
  rw [download_folder]
  simp only [getMeta, hm, if_pos]
  rw [hmk]

/-- `download_folder` when creating the root directory raises (a file
occupies the path): the error propagates to the caller. -/
theorem download_folder_mkFail (d : NodeData) (ch : List RNode) (dest : String)
    (fs fs1 : FS) (e : String) (hm : d.metaOk = true)
    (hmk : fs.makedirs (pathJoin dest d.name) = (fs1, some e)) :
    download_folder (RNode.node d ch) dest fs = (fs1, .error e) := by
  rw [download_folder]
  simp only [getMeta, hm, if_pos]
  rw [hmk]

/-! ## Splitting distinctness hypotheses -/

theorem nodup_split_folder (cp : String) (Dc Dr Fc Fr : List String)
    (h : ((cp :: (Dc ++ Dr)) ++ (Fc ++ Fr)).Nodup) :
    (Dc ++ Fc).Nodup ∧ (Dr ++ Fr).Nodup ∧
    cp ∉ Fc ∧ cp ∉ Fr ∧
    (∀ q ∈ Dr, q ∉ Fc) ∧ (∀ q ∈ Fr, q ∉ Dc) := by
  rw [List.nodup_append] at h
  obtain ⟨h1, h2, hdisj⟩ := h
  rw [List.nodup_cons, List.nodup_append] at h1
  obtain ⟨hcp, hDc, hDr, hDD⟩ := h1
  rw [List.nodup_append] at h2
  obtain ⟨hFc, hFr, hFF⟩ := h2
  refine ⟨?_, ?_, ?_, ?_, ?_, ?_⟩
  · rw [List.nodup_append]
    refine ⟨hDc, hFc, ?_⟩
    intro a haD haF
    refine hdisj (a := a) ?_ ?_ <;> simp [haD, haF]
  · rw [List.nodup_append]
    refine ⟨hDr, hFr, ?_⟩
    intro a haD haF
    refine hdisj (a := a) ?_ ?_ <;> simp [haD, haF]
  · intro hc
    refine hdisj (a := cp) ?_ ?_ <;> simp [hc]
  · intro hc
    refine hdisj (a := cp) ?_ ?_ <;> simp [hc]
  · intro q hq hqF
    refine hdisj (a := q) ?_ ?_ <;> simp [hq, hqF]
  · intro q hq hqD
    refine hdisj (a := q) ?_ ?_ <;> simp [hq, hqD]

theorem nodup_split_file (q0 : String) (Dr Fr : List String)
    (h : (Dr ++ (q0 :: Fr)).Nodup) :
    (Dr ++ Fr).Nodup ∧ q0 ∉ Dr ∧ q0 ∉ Fr := by
  rw [List.nodup_append] at h
  obtain ⟨hD, hF, hdisj⟩ := h
  rw [List.nodup_cons] at hF
  refine ⟨?_, ?_, hF.1⟩
  · rw [List.nodup_append]
    refine ⟨hD, hF.2, ?_⟩
    intro a ha hb
    refine hdisj ha ?_
    simp [hb]
  · intro hq
    refine hdisj hq ?_
    simp

/-- Master lemma: when every remote call succeeds and no two expected local
paths (directories or files) coincide, the per-item loop terminates normally
and the resulting filesystem is characterized exactly: its directories are
the expected folder paths plus the pre-existing ones, and reading any path
returns the last expected file entry for that path, falling back to the
pre-existing content.  The pre-existing filesystem must hold no file at an
expected directory path (else `makedirs` raises) and no directory at an
expected file path (else `open('wb')` raises). -/
theorem processItems_allOk (N : Nat) :
    ∀ (items : List RNode), sizeOf items < N → ∀ (p : String) (fs : FS),
      allOkList items = true →
      (dirPathsUnder items p ++ filePathsUnder items p).Nodup →
      (∀ q, q ∈ dirPathsUnder items p → fs.read q = none) →
      (∀ q, q ∈ filePathsUnder items p → q ∉ fs.dirs) →
      ∃ fs', processItems items p fs = (fs', none) ∧
        (∀ q, q ∈ fs'.dirs ↔ q ∈ dirPathsUnder items p ∨ q ∈ fs.dirs) ∧
        (∀ q, fs'.read q = firstSome (lookupLast (fileEntriesUnder items p) q) (fs.read q)) := by
  induction N with
  | zero => intro items h; exact absurd h (Nat.not_lt_zero _)
  | succ n ih =>
    intro items hsz p fs hok hnd h3 h4
    match items with
    | [] =>
      refine ⟨fs, processItems_nil p fs, ?_, ?_⟩
      · intro q; simp [dirPathsUnder_nil]
      · intro q; simp [fileEntriesUnder_nil, lookupLast_nil, firstSome_none_left]
    | RNode.node d cch :: rest =>
      have hszc : sizeOf cch < n := by simp at hsz; omega
      have hszr : sizeOf rest < n := by simp at hsz; omega
      have hok1 : allOkNode (RNode.node d cch) = true ∧ allOkList rest = true := by
        rw [allOkList_cons, Bool.and_eq_true] at hok; exact hok
      by_cases ht : d.trashed = true
      · rw [dirPathsUnder_cons, dirPathsOf_trashed d cch p ht, List.nil_append] at hnd h3
        rw [filePathsUnder_cons, filePathsOf_trashed d cch p ht, List.nil_append] at hnd h4
        obtain ⟨fs', he, hd, hr⟩ := ih rest hszr p fs hok1.2 hnd h3 h4
        refine ⟨fs', ?_, ?_, ?_⟩
        · rw [processItems_trashed d cch rest p fs ht]; exact he
        · intro q
          rw [dirPathsUnder_cons, dirPathsOf_trashed d cch p ht, List.nil_append]
          exact hd q
        · intro q
          rw [fileEntriesUnder_cons, fileEntriesOf_trashed d cch p ht, List.nil_append]
          exact hr q
      · have ht' : d.trashed = false := by simpa using ht
        have hok2 : (if d.mimeType = folderMime then d.listOk && allOkList cch
            else d.metaOk && (d.failAt.isNone ||
              decide (d.chunks.length ≤ d.failAt.getD 0))) = true := by
          have := hok1.1
          simp only [allOkNode, ht', Bool.false_or] at this
          exact this
        by_cases hf : d.mimeType = folderMime
        · -- folder child: makedirs + recurse, then continue with rest
          have hlist : d.listOk = true ∧ allOkList cch = true := by
            rw [if_pos hf, Bool.and_eq_true] at hok2
            exact hok2
          rw [dirPathsUnder_cons, dirPathsOf_folder d cch p ht' hf] at hnd h3
          rw [filePathsUnder_cons, filePathsOf_folder d cch p ht' hf] at hnd h4
          rw [List.cons_append] at hnd
          obtain ⟨hndc, hndr, hcpFc, hcpFr, hDrFc, hFrDc⟩ :=
            nodup_split_folder (pathJoin p d.name) (dirPathsUnder cch (pathJoin p d.name))
              (dirPathsUnder rest p) (filePathsUnder cch (pathJoin p d.name))
              (filePathsUnder rest p) hnd
          have hmk : fs.read (pathJoin p d.name) = none := h3 _ (by simp)
          obtain ⟨hmk2, hmkfiles, hmklog, hmkdirs⟩ := makedirs_spec fs (pathJoin p d.name) hmk
          have hpair : fs.makedirs (pathJoin p d.name) =
              ((fs.makedirs (pathJoin p d.name)).1, none) := by
            rw [← hmk2]
          have hf1read : ∀ q, (fs.makedirs (pathJoin p d.name)).1.read q = fs.read q := by
            intro q
            rw [FS.read, hmkfiles, FS.read]
          obtain ⟨fs2, he2, hd2, hr2⟩ := ih cch hszc (pathJoin p d.name)
            (((fs.makedirs (pathJoin p d.name)).1).logged (.createdFolder d.name)) hlist.2 hndc
            (by
              intro q hq
              rw [read_logged, hf1read]
              exact h3 q (by simp [hq]))
            (by
              intro q hq
              rw [dirs_logged, hmkdirs]
              push_neg
              constructor
              · intro hq2
                exact absurd hq (hq2 ▸ hcpFc)
              · exact h4 q (by simp [hq]))
          obtain ⟨fs3, he3, hd3, hr3⟩ := ih rest hszr p fs2 hok1.2 hndr
            (by
              intro q hq
              rw [hr2 q, read_logged, hf1read,
                lookupLast_eq_none _ q
                  (fun hmem => (hDrFc q hq) (fileEntries_paths_sub (sizeOf cch + 1) cch
                    (Nat.lt_succ_self _) (pathJoin p d.name) q hmem)),
                firstSome_none_left]
              exact h3 q (by simp [hq]))
            (by
              intro q hq
              rw [hd2 q]
              push_neg
              constructor
              · exact hFrDc q hq
              · rw [dirs_logged, hmkdirs]
                push_neg
                constructor
                · intro hq2
                  exact absurd hq (hq2 ▸ hcpFr)
                · exact h4 q (by simp [hq]))
          refine ⟨fs3, ?_, ?_, ?_⟩
          · rw [processItems_folder_mkOk d cch rest p fs _ ht' hf hpair,
              download_folder_contents_listOk d cch (pathJoin p d.name) _ hlist.1, he2]
            exact he3
          · intro q
            rw [dirPathsUnder_cons, dirPathsOf_folder d cch p ht' hf]
            rw [hd3 q, hd2 q, dirs_logged, hmkdirs]
            simp only [List.mem_append, List.mem_cons]
            tauto
          · intro q
            rw [fileEntriesUnder_cons, fileEntriesOf_folder d cch p ht' hf]
            rw [hr3 q, hr2 q, read_logged, hf1read, lookupLast_append, firstSome_assoc]
        · -- non-folder child: dispatched to download_file
          have hfile : d.metaOk = true ∧ (d.failAt.isNone ||
              decide (d.chunks.length ≤ d.failAt.getD 0)) = true := by
            rw [if_neg hf, Bool.and_eq_true] at hok2
            exact hok2
          rw [dirPathsUnder_cons, dirPathsOf_file d cch p ht' hf, List.nil_append] at hnd h3
          rw [filePathsUnder_cons, filePathsOf_file d cch p ht' hf] at hnd h4
          rw [List.singleton_append] at hnd h4
          obtain ⟨hndr, hq0Dr, hq0Fr⟩ :=
            nodup_split_file (pathJoin p d.name) (dirPathsUnder rest p)
              (filePathsUnder rest p) hnd
          by_cases hv : strStartsWith d.mimeType gappsPrefix = true
          · -- virtual document: materializer skips, filesystem untouched
            have hskip : download_file (RNode.node d cch) d.name p
                (fs.logged (.dispatched d.name)) =
                (fs.logged (.dispatched d.name)).logged (.skippedWorkspace d.name) :=
              download_file_skip d cch d.name p (fs.logged (.dispatched d.name)) hfile.1 hv
            obtain ⟨fs3, he3, hd3, hr3⟩ := ih rest hszr p
              ((fs.logged (.dispatched d.name)).logged (.skippedWorkspace d.name)) hok1.2 hndr
              (by
                intro q hq
                rw [read_logged, read_logged]
                exact h3 q hq)
              (by
                intro q hq
                rw [dirs_logged, dirs_logged]
                exact h4 q (by simp [hq]))
            refine ⟨fs3, ?_, ?_, ?_⟩
            · rw [processItems_file d cch rest p fs ht' hf, hskip]; exact he3
            · intro q
              have := hd3 q
              rw [dirs_logged, dirs_logged] at this
              rw [this, dirPathsUnder_cons, dirPathsOf_file d cch p ht' hf, List.nil_append]
            · intro q
              have := hr3 q
              rw [read_logged, read_logged] at this
              rw [this, fileEntriesUnder_cons, fileEntriesOf_virtual d cch p ht' hf hv,
                List.nil_append]
          · -- regular file: downloaded in full
            have hv' : strStartsWith d.mimeType gappsPrefix = false := by simpa using hv
            have herr : loopErr d.chunks d.failAt = none := transfer_ok_loopErr d hfile.2
            have hq0 : pathJoin p d.name ∉ (fs.logged (.dispatched d.name)).dirs := by
              rw [dirs_logged]
              exact h4 _ (by simp)
            obtain ⟨fdirs, flog, fne, fself⟩ :=
              download_file_ok d cch d.name p (fs.logged (.dispatched d.name))
                hfile.1 hv' hq0 herr
            have hread : ∀ q, (download_file (RNode.node d cch) d.name p
                (fs.logged (.dispatched d.name))).read q =
                if q = pathJoin p d.name then some d.chunks.flatten else fs.read q := by
              intro q
              by_cases hq : q = pathJoin p d.name
              · rw [if_pos hq, hq, fself]
              · rw [if_neg hq, fne q hq, read_logged]
            obtain ⟨fs3, he3, hd3, hr3⟩ := ih rest hszr p
              (download_file (RNode.node d cch) d.name p (fs.logged (.dispatched d.name)))
              hok1.2 hndr
              (by
                intro q hq
                rw [hread q, if_neg (show ¬ q = pathJoin p d.name by
                  intro hq2
                  exact hq0Dr (hq2 ▸ hq))]
                exact h3 q hq)
              (by
                intro q hq
                rw [fdirs, dirs_logged]
                exact h4 q (by simp [hq]))
            refine ⟨fs3, ?_, ?_, ?_⟩
            · rw [processItems_file d cch rest p fs ht' hf]; exact he3
            · intro q
              have := hd3 q
              rw [fdirs, dirs_logged] at this
              rw [this, dirPathsUnder_cons, dirPathsOf_file d cch p ht' hf, List.nil_append]
            · intro q
              rw [hr3 q, hread q, fileEntriesUnder_cons, fileEntriesOf_file d cch p ht' hf hv']
              rw [List.singleton_append, lookupLast_cons, firstSome_assoc]
              by_cases hq : q = pathJoin p d.name
              · simp only [if_pos hq]
                cases lookupLast (fileEntriesUnder rest p) q <;> rfl
              · simp only [if_neg hq]
                cases lookupLast (fileEntriesUnder rest p) q <;> rfl

/-- Partial-failure isolation: as long as every listing call succeeds and no
expected directory path coincides with another expected local path or holds
a pre-existing file, the per-item loop runs to completion — metadata,
transfer, and even open failures of file children are caught and never abort
it.  The loop creates exactly the expected directories and writes only at
the expected file paths. -/
theorem processItems_listingsOk (N : Nat) :
    ∀ (items : List RNode), sizeOf items < N → ∀ (p : String) (fs : FS),
      listingsOk items = true →
      (dirPathsUnder items p ++ filePathsUnder items p).Nodup →
      (∀ q, q ∈ dirPathsUnder items p → fs.read q = none) →
      ∃ fs', processItems items p fs = (fs', none) ∧
        (∀ q, q ∈ fs'.dirs ↔ q ∈ dirPathsUnder items p ∨ q ∈ fs.dirs) ∧
        (∀ q, q ∉ filePathsUnder items p → fs'.read q = fs.read q) := by
  induction N with
  | zero => intro items h; exact absurd h (Nat.not_lt_zero _)
  | succ n ih =>
    intro items hsz p fs hok hnd h3
    match items with
    | [] =>
      refine ⟨fs, processItems_nil p fs, ?_, ?_⟩
      · intro q; simp [dirPathsUnder_nil]
      · intro q _; rfl
    | RNode.node d cch :: rest =>
      have hszc : sizeOf cch < n := by simp at hsz; omega
      have hszr : sizeOf rest < n := by simp at hsz; omega
      have hok1 : listingsOkNode (RNode.node d cch) = true ∧ listingsOk rest = true := by
        rw [listingsOk_cons, Bool.and_eq_true] at hok; exact hok
      by_cases ht : d.trashed = true
      · rw [dirPathsUnder_cons, dirPathsOf_trashed d cch p ht, List.nil_append] at hnd h3
        rw [filePathsUnder_cons, filePathsOf_trashed d cch p ht, List.nil_append] at hnd
        obtain ⟨fs', he, hd, hr⟩ := ih rest hszr p fs hok1.2 hnd h3
        refine ⟨fs', ?_, ?_, ?_⟩
        · rw [processItems_trashed d cch rest p fs ht]; exact he
        · intro q
          rw [dirPathsUnder_cons, dirPathsOf_trashed d cch p ht, List.nil_append]
          exact hd q
        · intro q hq
          rw [filePathsUnder_cons, filePathsOf_trashed d cch p ht, List.nil_append] at hq
          exact hr q hq
      · have ht' : d.trashed = false := by simpa using ht
        by_cases hf : d.mimeType = folderMime
        · have hlist : d.listOk = true ∧ listingsOk cch = true := by
            have := hok1.1
            simp [listingsOkNode, ht', hf] at this
            exact this
          rw [dirPathsUnder_cons, dirPathsOf_folder d cch p ht' hf] at hnd h3
          rw [filePathsUnder_cons, filePathsOf_folder d cch p ht' hf] at hnd
          rw [List.cons_append] at hnd
          obtain ⟨hndc, hndr, hcpFc, hcpFr, hDrFc, hFrDc⟩ :=
            nodup_split_folder (pathJoin p d.name) (dirPathsUnder cch (pathJoin p d.name))
              (dirPathsUnder rest p) (filePathsUnder cch (pathJoin p d.name))
              (filePathsUnder rest p) hnd
          have hmk : fs.read (pathJoin p d.name) = none := h3 _ (by simp)
          obtain ⟨hmk2, hmkfiles, hmklog, hmkdirs⟩ := makedirs_spec fs (pathJoin p d.name) hmk
          have hpair : fs.makedirs (pathJoin p d.name) =
              ((fs.makedirs (pathJoin p d.name)).1, none) := by
            rw [← hmk2]
          have hf1read : ∀ q, (fs.makedirs (pathJoin p d.name)).1.read q = fs.read q := by
            intro q
            rw [FS.read, hmkfiles, FS.read]
          obtain ⟨fs2, he2, hd2, hr2⟩ := ih cch hszc (pathJoin p d.name)
            (((fs.makedirs (pathJoin p d.name)).1).logged (.createdFolder d.name)) hlist.2 hndc
            (by
              intro q hq
              rw [read_logged, hf1read]
              exact h3 q (by simp [hq]))
          obtain ⟨fs3, he3, hd3, hr3⟩ := ih rest hszr p fs2 hok1.2 hndr
            (by
              intro q hq
              rw [hr2 q (hDrFc q hq), read_logged, hf1read]
              exact h3 q (by simp [hq]))
          refine ⟨fs3, ?_, ?_, ?_⟩
          · rw [processItems_folder_mkOk d cch rest p fs _ ht' hf hpair,
              download_folder_contents_listOk d cch (pathJoin p d.name) _ hlist.1, he2]
            exact he3
          · intro q
            rw [dirPathsUnder_cons, dirPathsOf_folder d cch p ht' hf]
            rw [hd3 q, hd2 q, dirs_logged, hmkdirs]
            simp only [List.mem_append, List.mem_cons]
            tauto
          · intro q hq
            rw [filePathsUnder_cons, filePathsOf_folder d cch p ht' hf, List.mem_append,
              not_or] at hq
            rw [hr3 q hq.2, hr2 q hq.1, read_logged, hf1read]
        · -- non-folder child: handled entirely by download_file, which never raises
          rw [dirPathsUnder_cons, dirPathsOf_file d cch p ht' hf, List.nil_append] at hnd h3
          rw [filePathsUnder_cons, filePathsOf_file d cch p ht' hf] at hnd
          rw [List.singleton_append] at hnd
          obtain ⟨hndr, hq0Dr, hq0Fr⟩ :=
            nodup_split_file (pathJoin p d.name) (dirPathsUnder rest p)
              (filePathsUnder rest p) hnd
          obtain ⟨fdirs, fread⟩ :=
            download_file_frame (RNode.node d cch) d.name p (fs.logged (.dispatched d.name))
          obtain ⟨fs3, he3, hd3, hr3⟩ := ih rest hszr p
            (download_file (RNode.node d cch) d.name p (fs.logged (.dispatched d.name)))
            hok1.2 hndr
            (by
              intro q hq
              rw [fread q (show q ≠ pathJoin p d.name by
                  intro hq2
                  exact hq0Dr (hq2 ▸ hq)), read_logged]
              exact h3 q hq)
          refine ⟨fs3, ?_, ?_, ?_⟩
          · rw [processItems_file d cch rest p fs ht' hf]; exact he3
          · intro q
            have := hd3 q
            rw [fdirs, dirs_logged] at this
            rw [this, dirPathsUnder_cons, dirPathsOf_file d cch p ht' hf, List.nil_append]
          · intro q hq
            rw [filePathsUnder_cons, filePathsOf_file d cch p ht' hf,
              List.singleton_append, List.mem_cons, not_or] at hq
            rw [hr3 q hq.2, fread q hq.1, read_logged]

/-- `download_folder` under fully successful remote calls, pairwise-distinct
expected local paths, and a compatible starting filesystem (the root path is
a directory or absent, no file sits at an expected directory path, no
directory or root collision sits at an expected file path): returns the
local root path and produces exactly the expected directories and file
contents on top of the pre-existing filesystem. -/
theorem download_folder_allOk (root : RNode) (dest : String) (fs : FS)
    (h : allOkRoot root = true)
    (hnd : (dirPathsUnder root.children (pathJoin dest root.data.name) ++
      filePathsUnder root.children (pathJoin dest root.data.name)).Nodup)
    (hroot : pathJoin dest root.data.name ∈ fs.dirs ∨
      fs.read (pathJoin dest root.data.name) = none)
    (h3 : ∀ q, q ∈ dirPathsUnder root.children (pathJoin dest root.data.name) →
      fs.read q = none)
    (h4 : ∀ q, q ∈ filePathsUnder root.children (pathJoin dest root.data.name) →
      q ∉ fs.dirs ∧ q ≠ pathJoin dest root.data.name) :
    ∃ fs', download_folder root dest fs = (fs', .ok (pathJoin dest root.data.name)) ∧
      (∀ q, q ∈ fs'.dirs ↔ (q = pathJoin dest root.data.name ∨
        q ∈ dirPathsUnder root.children (pathJoin dest root.data.name) ∨ q ∈ fs.dirs)) ∧
      (∀ q, fs'.read q = firstSome (lookupLast
        (fileEntriesUnder root.children (pathJoin dest root.data.name)) q) (fs.read q)) := by
  match root with
  | RNode.node d ch =>
    simp only [RNode.data] at hnd hroot h3 h4 ⊢
    simp only [RNode.children] at hnd h3 h4 ⊢
    have h1 : d.metaOk = true ∧ d.listOk = true ∧ allOkList ch = true := by
      simp only [allOkRoot, RNode.data, RNode.children, Bool.and_eq_true, and_assoc] at h
      exact h
    have hmkkey : (fs.makedirs (pathJoin dest d.name)).2 = none ∧
        (fs.makedirs (pathJoin dest d.name)).1.files = fs.files ∧
        (∀ q, q ∈ (fs.makedirs (pathJoin dest d.name)).1.dirs ↔
          q = pathJoin dest d.name ∨ q ∈ fs.dirs) := by
      rcases hroot with hroot | hroot
      · rw [makedirs_mem fs _ hroot]
        refine ⟨rfl, rfl, ?_⟩
        intro q
        constructor
        · exact Or.inr
        · rintro (rfl | hq)
          · exact hroot
          · exact hq
      · obtain ⟨a, b, _, c⟩ := makedirs_spec fs (pathJoin dest d.name) hroot
        exact ⟨a, b, c⟩
    have hpair : fs.makedirs (pathJoin dest d.name) =
        ((fs.makedirs (pathJoin dest d.name)).1, none) := by
      rw [← hmkkey.1]
    have hf1read : ∀ q, (fs.makedirs (pathJoin dest d.name)).1.read q = fs.read q := by
      intro q
      rw [FS.read, hmkkey.2.1, FS.read]
    obtain ⟨fs2, he2, hd2, hr2⟩ := processItems_allOk (sizeOf ch + 1) ch (Nat.lt_succ_self _)
      (pathJoin dest d.name) ((fs.makedirs (pathJoin dest d.name)).1) h1.2.2 hnd
      (by
        intro q hq
        rw [hf1read]
        exact h3 q hq)
      (by
        intro q hq
        rw [hmkkey.2.2]
        push_neg
        exact ⟨(h4 q hq).2, (h4 q hq).1⟩)
    refine ⟨fs2, ?_, ?_, ?_⟩
    · rw [download_folder_mkOk d ch dest fs _ h1.1 hpair,
        download_folder_contents_listOk d ch (pathJoin dest d.name) _ h1.2.1, he2]
    · intro q
      rw [hd2 q, hmkkey.2.2]
      tauto
    · intro q
      rw [hr2 q, hf1read]

/-- `download_folder` completes and returns the local root path whenever the
root fetch and all listing calls succeed, the expected local paths are
pairwise distinct, and the starting filesystem holds no file at the root
path or at any expected directory path — no matter how file downloads
fare. -/
theorem download_folder_listingsOk (root : RNode) (dest : String) (fs : FS)
    (hm : root.data.metaOk = true) (hl : root.data.listOk = true)
    (hc : listingsOk root.children = true)
    (hnd : (dirPathsUnder root.children (pathJoin dest root.data.name) ++
      filePathsUnder root.children (pathJoin dest root.data.name)).Nodup)
    (hroot : pathJoin dest root.data.name ∈ fs.dirs ∨
      fs.read (pathJoin dest root.data.name) = none)
    (h3 : ∀ q, q ∈ dirPathsUnder root.children (pathJoin dest root.data.name) →
      fs.read q = none) :
    ∃ fs', download_folder root dest fs = (fs', .ok (pathJoin dest root.data.name)) := by
  match root with
  | RNode.node d ch =>
    simp only [RNode.data] at hm hl hnd hroot h3 ⊢
    simp only [RNode.children] at hc hnd h3
    have hmkkey : (fs.makedirs (pathJoin dest d.name)).2 = none ∧
        (fs.makedirs (pathJoin dest d.name)).1.files = fs.files := by
      rcases hroot with hroot | hroot
      · rw [makedirs_mem fs _ hroot]
        exact ⟨rfl, rfl⟩
      · obtain ⟨a, b, _, _⟩ := makedirs_spec fs (pathJoin dest d.name) hroot
        exact ⟨a, b⟩
    have hpair : fs.makedirs (pathJoin dest d.name) =
        ((fs.makedirs (pathJoin dest d.name)).1, none) := by
      rw [← hmkkey.1]
    have hf1read : ∀ q, (fs.makedirs (pathJoin dest d.name)).1.read q = fs.read q := by
      intro q
      rw [FS.read, hmkkey.2, FS.read]
    obtain ⟨fs2, he2, _, _⟩ := processItems_listingsOk (sizeOf ch + 1) ch (Nat.lt_succ_self _)
      (pathJoin dest d.name) ((fs.makedirs (pathJoin dest d.name)).1) hc hnd
      (by
        intro q hq
        rw [hf1read]
        exact h3 q hq)
    refine ⟨fs2, ?_⟩
    rw [download_folder_mkOk d ch dest fs _ hm hpair,
      download_folder_contents_listOk d ch (pathJoin dest d.name) _ hl, he2]

/-- The key list of the expected file entries is a sublist of the local
paths of the reachable non-folder children (so distinctness of the latter
carries over to the former). -/
theorem fileEntries_keys_sublist (N : Nat) :
    ∀ (items : List RNode), sizeOf items < N → ∀ (p : String),
      ((fileEntriesUnder items p).map Prod.fst).Sublist (filePathsUnder items p) := by
  induction N with
  | zero => intro items h; exact absurd h (Nat.not_lt_zero _)
  | succ n ih =>
    intro items hsz p
    match items with
    | [] =>
      rw [fileEntriesUnder_nil, filePathsUnder_nil]
      exact List.Sublist.refl _
    | RNode.node d cch :: rest =>
      have hszc : sizeOf cch < n := by simp at hsz; omega
      have hszr : sizeOf rest < n := by simp at hsz; omega
      rw [fileEntriesUnder_cons, filePathsUnder_cons, List.map_append]
      refine List.Sublist.append ?_ (ih rest hszr p)
      by_cases ht : d.trashed = true
      · rw [fileEntriesOf_trashed d cch p ht, filePathsOf_trashed d cch p ht]
        exact List.Sublist.refl _
      · have ht' : d.trashed = false := by simpa using ht
        by_cases hf : d.mimeType = folderMime
        · rw [fileEntriesOf_folder d cch p ht' hf, filePathsOf_folder d cch p ht' hf]
          exact ih cch hszc (pathJoin p d.name)
        · rw [filePathsOf_file d cch p ht' hf]
          by_cases hv : strStartsWith d.mimeType gappsPrefix = true
          · rw [fileEntriesOf_virtual d cch p ht' hf hv]
            exact List.nil_sublist _
          · have hv' : strStartsWith d.mimeType gappsPrefix = false := by simpa using hv
            rw [fileEntriesOf_file d cch p ht' hf hv']
            exact List.Sublist.refl _

/-! ## Claims -/

/-- Claim C1, counterexample: the claim fails as stated.  In `dupTree` every
remote call succeeds, yet two sibling files both named "a" map to the same
local path; after the run the local file holds the bytes of the second
node, so the first reachable non-virtual File node (reported bytes `[1]`)
has no local file with exactly its bytes. -/
theorem C1_counterexample :
    allOkRoot dupTree = true ∧
    (download_folder dupTree "dst" FS.empty).2 = Except.ok "dst/R" ∧
    ¬ (∀ e ∈ fileEntriesUnder dupTree.children "dst/R",
        (download_folder dupTree "dst" FS.empty).1.read e.1 = some e.2) := by
  refine ⟨by rfl, by rfl, ?_⟩
  intro hall
  have h1 := hall ("dst/R/a", [1]) (by decide)
  have h2 : (download_folder dupTree "dst" FS.empty).1.read "dst/R/a" = some [2] := by rfl
  rw [h1] at h2
  exact absurd h2 (by decide)

/-- Claim C1 (amended): for every remote tree whose listing, metadata and
transfer calls all succeed, and in which the root's local path and the local
paths of all reachable non-trashed children — folders and files alike — are
pairwise distinct, `download_folder` into an empty destination returns the
local root path, the local directories are exactly the root directory plus
the paths of the remote folder nodes reachable from the root, and every
reachable non-virtual File node has a local file at its ancestor-chain path
holding exactly the bytes the remote source reports. -/
theorem C1_mirror_faithful (root : RNode) (dest : String)
    (hok : allOkRoot root = true)
    (hnd : (pathJoin dest root.data.name ::
      (dirPathsUnder root.children (pathJoin dest root.data.name) ++
       filePathsUnder root.children (pathJoin dest root.data.name))).Nodup) :
    ∃ fs', download_folder root dest FS.empty = (fs', .ok (pathJoin dest root.data.name)) ∧
      (∀ q, q ∈ fs'.dirs ↔ (q = pathJoin dest root.data.name ∨
        q ∈ dirPathsUnder root.children (pathJoin dest root.data.name))) ∧
      (∀ e ∈ fileEntriesUnder root.children (pathJoin dest root.data.name),
        fs'.read e.1 = some e.2) := by
  rw [List.nodup_cons] at hnd
  obtain ⟨hhead, htail⟩ := hnd
  have hkeys : ((fileEntriesUnder root.children (pathJoin dest root.data.name)).map
      Prod.fst).Nodup :=
    ((fileEntries_keys_sublist (sizeOf root.children + 1) root.children (Nat.lt_succ_self _)
      (pathJoin dest root.data.name)).nodup
        ((List.nodup_append.mp htail).2.1))
  obtain ⟨fs', he, hd, hr⟩ := download_folder_allOk root dest FS.empty hok htail
    (Or.inr rfl) (fun q _ => rfl)
    (by
      intro q hq
      refine ⟨by simp [FS.empty], ?_⟩
      intro hq2
      apply hhead
      rw [hq2] at hq
      exact List.mem_append_right _ hq)
  refine ⟨fs', he, ?_, ?_⟩
  · intro q
    have := hd q
    simpa [FS.empty] using this
  · intro e he'
    obtain ⟨q, b⟩ := e
    have := hr q
    rw [lookupLast_of_nodup _ q b hkeys he'] at this
    exact this

/-- Witness for C1 on the end-to-end scenario tree: root "R" holding
"a.txt" and subfolder "S" holding "b.txt". -/
theorem C1_mirror_faithful_witness :
    allOkRoot scenTree = true ∧
    (pathJoin "dst" scenTree.data.name ::
      (dirPathsUnder scenTree.children (pathJoin "dst" scenTree.data.name) ++
       filePathsUnder scenTree.children (pathJoin "dst" scenTree.data.name))).Nodup ∧
    (∃ fs', download_folder scenTree "dst" FS.empty =
        (fs', .ok (pathJoin "dst" scenTree.data.name)) ∧
      (∀ q, q ∈ fs'.dirs ↔ (q = pathJoin "dst" scenTree.data.name ∨
        q ∈ dirPathsUnder scenTree.children (pathJoin "dst" scenTree.data.name))) ∧
      (∀ e ∈ fileEntriesUnder scenTree.children (pathJoin "dst" scenTree.data.name),
        fs'.read e.1 = some e.2)) :=
  ⟨by rfl, by decide, C1_mirror_faithful scenTree "dst" (by rfl) (by decide)⟩

/-- Claim C2, counterexample: the claim fails as stated.  The walker performs
no virtual-document check of its own: in `vdocTree` the (non-trashed,
non-folder) VirtualDocument child "doc" IS dispatched to the File
Materializer — the run's log starts with the walker's dispatch of "doc" —
and the virtual-document condition is checked once, inside the materializer
(exactly one skip warning), not twice. -/
theorem C2_counterexample :
    vdocData.trashed = false ∧
    vdocData.mimeType ≠ folderMime ∧
    strStartsWith vdocData.mimeType gappsPrefix = true ∧
    (download_folder vdocTree "dst" FS.empty).1.log =
      [Event.dispatched "doc", Event.skippedWorkspace "doc"] := by
  exact ⟨by rfl, by decide, by rfl, by rfl⟩

/-- Claim C2 (amended): during the child scan the walker performs no
virtual-document check: every non-trashed, non-folder child — VirtualDocument
children included — is dispatched to the File Materializer, and the
virtual-document condition is checked once, inside the materializer, which
emits the warning notice and returns without touching the filesystem. -/
theorem C2_single_virtual_check (d : NodeData) (cch rest : List RNode) (p : String) (fs : FS)
    (h1 : d.trashed = false) (h2 : d.mimeType ≠ folderMime) :
    processItems (RNode.node d cch :: rest) p fs =
      processItems rest p
        (download_file (RNode.node d cch) d.name p (fs.logged (.dispatched d.name))) ∧
    (d.metaOk = true → strStartsWith d.mimeType gappsPrefix = true →
      download_file (RNode.node d cch) d.name p (fs.logged (.dispatched d.name)) =
        (fs.logged (.dispatched d.name)).logged (.skippedWorkspace d.name)) := by
  refine ⟨processItems_file d cch rest p fs h1 h2, ?_⟩
  intro hm hv
  exact download_file_skip d cch d.name p (fs.logged (.dispatched d.name)) hm hv

/-- Witness for C2 (amended) at the virtual-document child of `vdocTree`. -/
theorem C2_single_virtual_check_witness :
    vdocData.trashed = false ∧ vdocData.mimeType ≠ folderMime ∧
    (processItems [RNode.node vdocData []] "dst/R" FS.empty =
      processItems [] "dst/R"
        (download_file (RNode.node vdocData []) vdocData.name "dst/R"
          (FS.empty.logged (.dispatched vdocData.name))) ∧
    (vdocData.metaOk = true → strStartsWith vdocData.mimeType gappsPrefix = true →
      download_file (RNode.node vdocData []) vdocData.name "dst/R"
          (FS.empty.logged (.dispatched vdocData.name)) =
        (FS.empty.logged (.dispatched vdocData.name)).logged
          (.skippedWorkspace vdocData.name))) :=
  ⟨by rfl, by decide,
    C2_single_virtual_check vdocData [] [] "dst/R" FS.empty (by rfl) (by decide)⟩

/-- Claim C3, counterexample: the claim fails as stated.  In `cexC3Tree` the
root fetch and every listing succeed and the file child "m" fails its
metadata fetch, yet the mirror does NOT return the local root path: after
the sibling file "S" is written, `os.makedirs` on the same-named folder
sibling raises an uncaught `FileExistsError` that aborts the whole walk. -/
theorem C3_counterexample :
    cexC3Tree.data.metaOk = true ∧ cexC3Tree.data.listOk = true ∧
    listingsOk cexC3Tree.children = true ∧
    cexC3Tree.children.head? = some (RNode.node metaFailData []) ∧
    metaFailData.metaOk = false ∧ metaFailData.trashed = false ∧
    metaFailData.mimeType ≠ folderMime ∧
    (download_folder cexC3Tree "dst" FS.empty).2 = Except.error "file exists" := by
  exact ⟨by rfl, by rfl, by rfl, by rfl, by rfl, by rfl, by decide, by rfl⟩

/-- Claim C3 (amended): a file child whose materialization fails (metadata
fetch or transfer error) never aborts the walk: the loop continues with its
siblings exactly as it would for any file child (first conjunct, with no
constraint at all on the failing child's `metaOk`, `chunks` or `failAt`);
and when the root fetch and all listings succeed AND the expected local
paths are pairwise distinct (so no `makedirs` can land on a file-occupied
path), `download_folder` into an empty destination returns the local root
path no matter how the file downloads fare (second conjunct). -/
theorem C3_partial_failure_isolation :
    (∀ (d : NodeData) (cch rest : List RNode) (p : String) (fs : FS),
      d.trashed = false → d.mimeType ≠ folderMime →
      processItems (RNode.node d cch :: rest) p fs =
        processItems rest p
          (download_file (RNode.node d cch) d.name p (fs.logged (.dispatched d.name)))) ∧
    (∀ (root : RNode) (dest : String),
      root.data.metaOk = true → root.data.listOk = true →
      listingsOk root.children = true →
      (pathJoin dest root.data.name ::
        (dirPathsUnder root.children (pathJoin dest root.data.name) ++
         filePathsUnder root.children (pathJoin dest root.data.name))).Nodup →
      ∃ fs', download_folder root dest FS.empty =
        (fs', .ok (pathJoin dest root.data.name))) := by
  constructor
  · intro d cch rest p fs h1 h2
    exact processItems_file d cch rest p fs h1 h2
  · intro root dest hm hl hc hnd
    rw [List.nodup_cons] at hnd
    exact download_folder_listingsOk root dest FS.empty hm hl hc hnd.2
      (Or.inr rfl) (fun q _ => rfl)

/-- Witness for C3 on `partialFailTree`: file "x" fails mid-stream, yet the
loop hands over to the sibling "y" and the mirror returns "dst/R". -/
theorem C3_partial_failure_isolation_witness :
    streamFailData.trashed = false ∧ streamFailData.mimeType ≠ folderMime ∧
    (processItems [RNode.node streamFailData [], fileNode "y" [[7]]] "dst/R" FS.empty =
      processItems [fileNode "y" [[7]]] "dst/R"
        (download_file (RNode.node streamFailData []) streamFailData.name "dst/R"
          (FS.empty.logged (.dispatched streamFailData.name)))) ∧
    partialFailTree.data.metaOk = true ∧ partialFailTree.data.listOk = true ∧
    listingsOk partialFailTree.children = true ∧
    (pathJoin "dst" partialFailTree.data.name ::
      (dirPathsUnder partialFailTree.children (pathJoin "dst" partialFailTree.data.name) ++
       filePathsUnder partialFailTree.children
         (pathJoin "dst" partialFailTree.data.name))).Nodup ∧
    (∃ fs', download_folder partialFailTree "dst" FS.empty =
      (fs', .ok (pathJoin "dst" partialFailTree.data.name))) :=
  ⟨by rfl, by decide,
    C3_partial_failure_isolation.1 streamFailData [] [fileNode "y" [[7]]] "dst/R" FS.empty
      (by rfl) (by decide),
    by rfl, by rfl, by rfl, by decide,
    C3_partial_failure_isolation.2 partialFailTree "dst" (by rfl) (by rfl) (by rfl)
      (by decide)⟩

/-- Claim C4, counterexample: the claim fails as stated.  In `listFailTree`
the listing of child folder "C" raises; the error is NOT caught: it
propagates out of `download_folder` as an error result, and the sibling
folder "D" is never processed (no "dst/R/D" directory, no created-folder
notice for "D"). -/
theorem C4_counterexample :
    download_folder listFailTree "dst" FS.empty =
      (⟨["dst/R/C", "dst/R"], [], [Event.createdFolder "C"]⟩,
        Except.error "listing failed") ∧
    "dst/R/D" ∉ (download_folder listFailTree "dst" FS.empty).1.dirs := by
  exact ⟨by rfl, by decide⟩

/-- Claim C4 (amended): an error raised while listing a child folder C's
children is not caught anywhere, at any position or depth.  First conjunct:
wherever C sits in its parent's child list (arbitrary processed siblings
`pre` before it, arbitrary `post` after it, arbitrary directory `p` and
state), once the walk reaches C the listing error aborts the sibling loop —
the final state shows C's directory creation and nothing from C's subtree or
remaining siblings.  Second conjunct: every enclosing folder frame forwards
an error arriving from its subtree unchanged past its own remaining
siblings, so the abort climbs through arbitrarily many recursion frames.
Third conjunct: `download_folder` forwards an error from the root's contents
to its caller. -/
theorem C4_listing_error_propagates :
    (∀ (dC : NodeData) (cch pre post : List RNode) (p : String) (fs fs1 : FS),
      dC.trashed = false → dC.mimeType = folderMime → dC.listOk = false →
      processItems pre p fs = (fs1, none) →
      fs1.read (pathJoin p dC.name) = none →
      processItems (pre ++ RNode.node dC cch :: post) p fs =
        (((fs1.makedirs (pathJoin p dC.name)).1).logged (.createdFolder dC.name),
          some "listing failed")) ∧
    (∀ (d : NodeData) (X pre post : List RNode) (p : String) (fs fs1 fs2 : FS) (e : String),
      d.trashed = false → d.mimeType = folderMime →
      processItems pre p fs = (fs1, none) →
      fs1.makedirs (pathJoin p d.name) = ((fs1.makedirs (pathJoin p d.name)).1, none) →
      download_folder_contents (RNode.node d X) (pathJoin p d.name)
        (((fs1.makedirs (pathJoin p d.name)).1).logged (.createdFolder d.name)) =
          (fs2, some e) →
      processItems (pre ++ RNode.node d X :: post) p fs = (fs2, some e)) ∧
    (∀ (d : NodeData) (ch : List RNode) (dest : String) (fs fs2 : FS) (e : String),
      d.metaOk = true →
      fs.makedirs (pathJoin dest d.name) = ((fs.makedirs (pathJoin dest d.name)).1, none) →
      download_folder_contents (RNode.node d ch) (pathJoin dest d.name)
        ((fs.makedirs (pathJoin dest d.name)).1) = (fs2, some e) →
      download_folder (RNode.node d ch) dest fs = (fs2, .error e)) := by
  refine ⟨?_, ?_, ?_⟩
  · intro dC cch pre post p fs fs1 h1 h2 h3 hpre hmk
    rw [processItems_append pre (RNode.node dC cch :: post) p fs, hpre]
    have hpair : fs1.makedirs (pathJoin p dC.name) =
        ((fs1.makedirs (pathJoin p dC.name)).1, none) := by
      rw [← (makedirs_spec fs1 (pathJoin p dC.name) hmk).1]
    show processItems (RNode.node dC cch :: post) p fs1 = _
    rw [processItems_folder_mkOk dC cch post p fs1 _ h1 h2 hpair,
      download_folder_contents_listFail dC cch (pathJoin p dC.name) _ h3]
  · intro d X pre post p fs fs1 fs2 e h1 h2 hpre hmk hrec
    rw [processItems_append pre (RNode.node d X :: post) p fs, hpre]
    show processItems (RNode.node d X :: post) p fs1 = _
    rw [processItems_folder_mkOk d X post p fs1 _ h1 h2 hmk, hrec]
  · intro d ch dest fs fs2 e hm hmk hrec
    rw [download_folder_mkOk d ch dest fs _ hm hmk, hrec]

/-- Witness for C4 (amended) along `deepTree`, where the failing folder "C"
sits one level below the root, after a processed sibling file "y": the
listing error aborts the inner loop past "D", climbs through the frame of
folder "A", and exits `download_folder`. -/
theorem C4_listing_error_propagates_witness :
    listFailFolderData.trashed = false ∧ listFailFolderData.mimeType = folderMime ∧
    listFailFolderData.listOk = false ∧
    (processItems ([fileNode "y" [[7]]] ++
        RNode.node listFailFolderData [] :: [folderNode "D" []]) "dst/R/A" FS.empty =
      ((((⟨[], [("dst/R/A/y", [7]), ("dst/R/A/y", [])],
          [Event.dispatched "y", Event.downloaded "y"]⟩ : FS).makedirs
            (pathJoin "dst/R/A" listFailFolderData.name)).1).logged
              (.createdFolder listFailFolderData.name),
        some "listing failed")) ∧
    (download_folder deepTree "dst" FS.empty =
      (⟨["dst/R/A/C", "dst/R/A", "dst/R"],
        [("dst/R/A/y", [7]), ("dst/R/A/y", [])],
        [Event.createdFolder "A", Event.dispatched "y", Event.downloaded "y",
          Event.createdFolder "C"]⟩,
        Except.error "listing failed")) := by
  refine ⟨by rfl, by rfl, by rfl, ?_, ?_⟩
  · exact C4_listing_error_propagates.1 listFailFolderData [] [fileNode "y" [[7]]]
      [folderNode "D" []] "dst/R/A" FS.empty
      ⟨[], [("dst/R/A/y", [7]), ("dst/R/A/y", [])],
        [Event.dispatched "y", Event.downloaded "y"]⟩
      (by rfl) (by rfl) (by rfl) (by rfl) (by rfl)
  · exact C4_listing_error_propagates.2.2 (RNode.node deepTree.data deepTree.children).data
      deepTree.children "dst" FS.empty
      ⟨["dst/R/A/C", "dst/R/A", "dst/R"],
        [("dst/R/A/y", [7]), ("dst/R/A/y", [])],
        [Event.createdFolder "A", Event.dispatched "y", Event.downloaded "y",
          Event.createdFolder "C"]⟩
      "listing failed" (by rfl) (by rfl) (by rfl)

/-- Claim C5: `materialize` never raises: whatever exception the body of its
`try:` block produces is caught inside `download_file`, which logs the file
name with the error message and returns the body's state normally; when the
body raises nothing, the body's state is returned unchanged.  In both cases
the caller gets a plain filesystem back, never an exception. -/
theorem C5_materialize_never_raises (nd : RNode) (name lp : String) (fs : FS) :
    ((download_file_try nd name lp fs).2 = none →
      download_file nd name lp fs = (download_file_try nd name lp fs).1) ∧
    (∀ e, (download_file_try nd name lp fs).2 = some e →
      download_file nd name lp fs =
        ((download_file_try nd name lp fs).1).logged (.failed name e)) := by
  rcases htry : download_file_try nd name lp fs with ⟨fs1, err⟩
  rw [download_file, htry]
  cases err with
  | none =>
    constructor
    · intro _h
      rfl
    · intro e h
      simp at h
  | some e0 =>
    constructor
    · intro h
      simp at h
    · intro e h
      simp only [Option.some.injEq] at h
      subst h
      rfl

/-- Witness for C5: the metadata fetch of `metaFailData` raises inside the
body; `download_file` returns normally with the failure logged. -/
theorem C5_materialize_never_raises_witness :
    (download_file_try (RNode.node metaFailData []) "m" "dst/R" FS.empty).2 =
      some "metadata fetch failed" ∧
    download_file (RNode.node metaFailData []) "m" "dst/R" FS.empty =
      ((download_file_try (RNode.node metaFailData []) "m" "dst/R" FS.empty).1).logged
        (.failed "m" "metadata fetch failed") :=
  ⟨by rfl,
    (C5_materialize_never_raises (RNode.node metaFailData []) "m" "dst/R" FS.empty).2
      "metadata fetch failed" (by rfl)⟩

/-- Claim C6: when the root metadata fetch fails, `download_folder`
propagates the error to its caller and the filesystem is returned exactly as
it was — no directory created, no file downloaded, nothing logged (the root
fetch precedes every local write). -/
theorem C6_root_fetch_failure (root : RNode) (dest : String) (fs : FS)
    (h : root.data.metaOk = false) :
    download_folder root dest fs = (fs, .error "metadata fetch failed") := by
  match root with
  | RNode.node d ch =>
    simp only [RNode.data] at h
    rw [download_folder]
    simp [getMeta, h]

/-- Witness for C6: the failing root `metaFailRoot` aborts the run with the
empty filesystem untouched. -/
theorem C6_root_fetch_failure_witness :
    metaFailRoot.data.metaOk = false ∧
    download_folder metaFailRoot "dst" FS.empty =
      (FS.empty, .error "metadata fetch failed") :=
  ⟨by rfl, C6_root_fetch_failure metaFailRoot "dst" FS.empty (by rfl)⟩

/-- Claim C7: directory creation is idempotent at every level — `makedirs`
on an existing directory succeeds as a no-op rather than failing (first
conjunct) — so re-running the mirror against an unchanged, fully successful,
collision-free remote tree with the destination root already populated by
the first run does not fail due to the pre-existing directories: the second
run returns the same local root path (second conjunct). -/
theorem C7_idempotent_dirs :
    (∀ (fs : FS) (p : String), p ∈ fs.dirs → fs.makedirs p = (fs, none)) ∧
    (∀ (root : RNode) (dest : String), allOkRoot root = true →
      (pathJoin dest root.data.name ::
        (dirPathsUnder root.children (pathJoin dest root.data.name) ++
         filePathsUnder root.children (pathJoin dest root.data.name))).Nodup →
      ∃ fs1 fs2,
        download_folder root dest FS.empty = (fs1, .ok (pathJoin dest root.data.name)) ∧
        download_folder root dest fs1 = (fs2, .ok (pathJoin dest root.data.name))) := by
  constructor
  · exact makedirs_mem
  · intro root dest h hnd
    rw [List.nodup_cons] at hnd
    obtain ⟨hhead, htail⟩ := hnd
    have hdisj := (List.nodup_append.mp htail).2.2
    obtain ⟨fs1, he1, hd1, hr1⟩ := download_folder_allOk root dest FS.empty h htail
      (Or.inr rfl) (fun q _ => rfl)
      (by
        intro q hq
        refine ⟨by simp [FS.empty], ?_⟩
        intro hq2
        apply hhead
        rw [hq2] at hq
        exact List.mem_append_right _ hq)
    obtain ⟨fs2, he2, _, _⟩ := download_folder_allOk root dest fs1 h htail
      (Or.inl ((hd1 _).mpr (Or.inl rfl)))
      (by
        intro q hq
        rw [hr1 q, lookupLast_eq_none _ q
          (fun hmem =>
            hdisj hq (fileEntries_paths_sub (sizeOf root.children + 1) root.children
              (Nat.lt_succ_self _) (pathJoin dest root.data.name) q hmem)),
          firstSome_none_left]
        rfl)
      (by
        intro q hq
        constructor
        · rw [hd1 q]
          push_neg
          refine ⟨?_, fun hq2 => hdisj hq2 hq, by simp [FS.empty]⟩
          intro hq2
          apply hhead
          rw [hq2] at hq
          exact List.mem_append_right _ hq
        · intro hq2
          apply hhead
          rw [hq2] at hq
          exact List.mem_append_right _ hq)
    exact ⟨fs1, fs2, he1, he2⟩

/-- Witness for C7 on `scenTree`: the first mirror run populates the
destination; the second run over that populated destination still returns
"dst/R".  The first conjunct is exercised on `prePopulated`, which already
holds "dst/R". -/
theorem C7_idempotent_dirs_witness :
    "dst/R" ∈ prePopulated.dirs ∧
    prePopulated.makedirs "dst/R" = (prePopulated, none) ∧
    allOkRoot scenTree = true ∧
    (pathJoin "dst" scenTree.data.name ::
      (dirPathsUnder scenTree.children (pathJoin "dst" scenTree.data.name) ++
       filePathsUnder scenTree.children (pathJoin "dst" scenTree.data.name))).Nodup ∧
    (∃ fs1 fs2,
      download_folder scenTree "dst" FS.empty = (fs1, .ok (pathJoin "dst" scenTree.data.name)) ∧
      download_folder scenTree "dst" fs1 = (fs2, .ok (pathJoin "dst" scenTree.data.name))) :=
  ⟨by decide, C7_idempotent_dirs.1 prePopulated "dst/R" (by decide), by rfl, by decide,
    C7_idempotent_dirs.2 scenTree "dst" (by rfl) (by decide)⟩

/-- Claim C8: the materializer first re-fetches the file's metadata — a
failing fetch takes the error path before anything else happens (second
conjunct) — and when the fetched MIME type is a virtual/native document
format it returns after the warning notice without opening a byte stream:
no local file and no directory is created or modified (first conjunct). -/
theorem C8_virtual_skip_before_stream (d : NodeData) (cch : List RNode)
    (name lp : String) (fs : FS) :
    (d.metaOk = true → strStartsWith d.mimeType gappsPrefix = true →
      download_file (RNode.node d cch) name lp fs = fs.logged (.skippedWorkspace name) ∧
      (download_file (RNode.node d cch) name lp fs).files = fs.files ∧
      (download_file (RNode.node d cch) name lp fs).dirs = fs.dirs) ∧
    (d.metaOk = false →
      download_file (RNode.node d cch) name lp fs =
        fs.logged (.failed name "metadata fetch failed")) := by
  constructor
  · intro h1 h2
    have hs := download_file_skip d cch name lp fs h1 h2
    exact ⟨hs, by rw [hs, files_logged], by rw [hs, dirs_logged]⟩
  · intro h
    exact download_file_metaFail d cch name lp fs h

/-- Witness for C8: the virtual document `vdocData` is skipped with the
filesystem untouched; the failing fetch of `metaFailData` takes the error
path. -/
theorem C8_virtual_skip_before_stream_witness :
    (download_file (RNode.node vdocData []) "doc" "dst/R" FS.empty =
        FS.empty.logged (.skippedWorkspace "doc") ∧
      (download_file (RNode.node vdocData []) "doc" "dst/R" FS.empty).files =
        FS.empty.files ∧
      (download_file (RNode.node vdocData []) "doc" "dst/R" FS.empty).dirs =
        FS.empty.dirs) ∧
    download_file (RNode.node metaFailData []) "m" "dst/R" FS.empty =
      FS.empty.logged (.failed "m" "metadata fetch failed") :=
  ⟨(C8_virtual_skip_before_stream vdocData [] "doc" "dst/R" FS.empty).1 (by rfl) (by rfl),
    (C8_virtual_skip_before_stream metaFailData [] "m" "dst/R" FS.empty).2 (by rfl)⟩

/-- Claim C9: the destination file is opened only after the metadata
re-fetch and the virtual-document check: a failing fetch or a virtual skip
leaves the file map untouched (first two conjuncts); but once the file has
been opened (the destination path is not an existing directory, so
`open('wb')` succeeded), a mid-transfer failure leaves the already-created
local file on disk holding exactly the chunks written before the error, with
the failure reported (third conjunct) — materialization is not atomic. -/
theorem C9_partial_file_on_stream_failure (d : NodeData) (cch : List RNode)
    (name lp : String) (fs : FS) (k : Nat) :
    (d.metaOk = false →
      (download_file (RNode.node d cch) name lp fs).files = fs.files) ∧
    (d.metaOk = true → strStartsWith d.mimeType gappsPrefix = true →
      (download_file (RNode.node d cch) name lp fs).files = fs.files) ∧
    (d.metaOk = true → strStartsWith d.mimeType gappsPrefix = false →
      pathJoin lp name ∉ fs.dirs →
      d.failAt = some k → k < d.chunks.length →
      (download_file (RNode.node d cch) name lp fs).read (pathJoin lp name) =
        some ((d.chunks.take k).flatten) ∧
      (download_file (RNode.node d cch) name lp fs).log =
        fs.log ++ [Event.failed name "chunk request failed"]) := by
  refine ⟨?_, ?_, ?_⟩
  · intro h
    rw [download_file_metaFail d cch name lp fs h, files_logged]
  · intro h1 h2
    rw [download_file_skip d cch name lp fs h1 h2, files_logged]
  · intro h1 h2 hdir hk hlt
    have herr : loopErr d.chunks d.failAt = some "chunk request failed" := by
      rw [hk]
      simp [loopErr, hlt]
    obtain ⟨fd, fl, fq, fp⟩ :=
      download_file_failStream d cch name lp fs "chunk request failed" h1 h2 hdir herr
    constructor
    · rw [fp, hk]
      rfl
    · exact fl

/-- Witness for C9: `streamFailData` fails after one of its three chunks;
the local file "dst/R/x" is left holding exactly the first chunk. -/
theorem C9_partial_file_on_stream_failure_witness :
    streamFailData.metaOk = true ∧
    strStartsWith streamFailData.mimeType gappsPrefix = false ∧
    pathJoin "dst/R" "x" ∉ FS.empty.dirs ∧
    streamFailData.failAt = some 1 ∧
    1 < streamFailData.chunks.length ∧
    (download_file (RNode.node streamFailData []) "x" "dst/R" FS.empty).read
        (pathJoin "dst/R" "x") = some ((streamFailData.chunks.take 1).flatten) ∧
    (download_file (RNode.node streamFailData []) "x" "dst/R" FS.empty).log =
      FS.empty.log ++ [Event.failed "x" "chunk request failed"] :=
  ⟨by rfl, by rfl, by decide, by rfl, by decide,
    (C9_partial_file_on_stream_failure streamFailData [] "x" "dst/R" FS.empty 1).2.2
      (by rfl) (by rfl) (by decide) (by rfl) (by decide)⟩

/-- Claim C10: a trashed child is invisible to the walk — the listing query
filters on trashed=false, so processing a child list starting with a trashed
child is identical to processing its tail: no directory, no file, no
recursion, no dispatch to the materializer. -/
theorem C10_trashed_children_invisible (d : NodeData) (cch rest : List RNode)
    (p : String) (fs : FS) (h : d.trashed = true) :
    processItems (RNode.node d cch :: rest) p fs = processItems rest p fs :=
  processItems_trashed d cch rest p fs h

/-- Witness for C10 at the trashed file child `trashedFileData`. -/
theorem C10_trashed_children_invisible_witness :
    trashedFileData.trashed = true ∧
    processItems [RNode.node trashedFileData []] "dst/R" FS.empty =
      processItems [] "dst/R" FS.empty :=
  ⟨by rfl, C10_trashed_children_invisible trashedFileData [] [] "dst/R" FS.empty (by rfl)⟩
